import Mathlib

/-!
Verification of the miner-hq monitoring pipeline.

Shallow embedding conventions, used uniformly below:

* Go `float64` quantities (hashrates, temperatures, difficulties, percentages)
  are modelled as `ℚ`; all comparisons in the source are order comparisons on
  finite decimal values, which `ℚ` reflects exactly.
* Go `time.Time` instants are modelled as `Nat` seconds (`Nat`); `time.Since(t)`
  at instant `now` becomes `now - t`, and durations are second counts
  (the 5-minute alert cooldown is `300`).
* Go maps are modelled as functions into `Option`; a missing key is `none`.
* Methods that mutate the receiver are modelled as functions from the old state
  to the new state (plus the list of alerts actually emitted, where relevant).
  Webhook/log delivery is fire-and-forget in the source, so "the alert is
  emitted" means it reached the delivery step (logged or POSTed), and a
  cooldown-suppressed alert is simply absent from the returned list.
* Struct fields that the evaluated code never reads (message strings, icons,
  HTTP clients, timestamps inside events) are omitted.
-/

namespace MinerHQ

/-- Go source: `alerts.AlertType`, one constant per alert kind. -/
inductive AlertType where
  | minerOffline
  | tempHigh
  | hashrateDrop
  | shareRejected
  | poolDisconnected
  | fanLow
  | wifiWeak
  | newBestDiff
  | blockFound
  | newLeader
deriving DecidableEq, Repr, Fintype

/-- Go source: the string constants backing each `AlertType`. -/
def AlertType.str : AlertType → String
  | .minerOffline => "miner_offline"
  | .tempHigh => "temp_high"
  | .hashrateDrop => "hashrate_drop"
  | .shareRejected => "share_rejected"
  | .poolDisconnected => "pool_disconnected"
  | .fanLow => "fan_low"
  | .wifiWeak => "wifi_weak"
  | .newBestDiff => "new_best_diff"
  | .blockFound => "block_found"
  | .newLeader => "new_leader"

/-- Go source: `alerts.AlertConfig`. -/
structure AlertConfig where
  webhookURL : String
  minerOfflineSeconds : Int
  tempAbove : ℚ
  hashrateDropPercent : ℚ
  fanRPMBelow : Int
  wifiSignalBelow : Int
  onShareRejected : Bool
  onPoolDisconnected : Bool
  onNewBestDiff : Bool
  onBlockFound : Bool
  onNewLeader : Bool

/-- Go source: `alerts.Alert` (the fields the evaluator computes; the
formatted message string is omitted, the numeric payload is `value`). -/
structure Alert where
  type : AlertType
  minerIP : String
  minerName : String
  value : ℚ
deriving DecidableEq, Repr

/-- Go source: `storage.MinerSnapshot`, restricted to the fields
`AlertEngine.CheckSnapshot` reads. -/
structure MinerSnapshot where
  minerIP : String
  hostname : String
  hashRate : ℚ
  temperature : ℚ
  fanRPM : Int
  wifiRSSI : Int
  poolConnected : Bool
  bestDiffSess : ℚ

/-- Go source: `storage.Share` (timestamp omitted). -/
structure Share where
  minerIP : String
  hostname : String
  asicNum : Int
  difficulty : ℚ
  jobID : String
deriving DecidableEq, Repr

/-- Go source: `storage.Block`, restricted to the fields `CheckBlock` reads. -/
structure Block where
  minerIP : String
  hostname : String
  coinSymbol : String
  difficulty : ℚ
  valueUSD : ℚ

/-- Go source: `storage.Miner`, restricted to the fields `CheckOffline` reads. -/
structure Miner where
  ip : String
  hostname : String
  enabled : Bool

/-- Go source: `alerts.AlertEngine`, the mutable state behind the per-event
checks (config and HTTP client excluded; they are passed separately / omitted). -/
structure EngineState where
  lastSeen : String → Option Nat
  lastHashrate : String → Option ℚ
  lastBestDiff : String → Option ℚ
  alertCooldown : String → Option Nat
  weeklyBestDiff : ℚ
  weeklyLeader : String
  weekStart : Nat

/-- Go source: `alerts.NewAlertEngine` — empty maps, zero weekly state,
week start taken from the clock (passed in as `ws`). -/
def newAlertEngine (ws : Nat) : EngineState :=
  { lastSeen := fun _ => none
    lastHashrate := fun _ => none
    lastBestDiff := fun _ => none
    alertCooldown := fun _ => none
    weeklyBestDiff := 0
    weeklyLeader := ""
    weekStart := ws }

/-- Go source: `AlertEngine.InitWeeklyLeader` — seeds the weekly-leader state
(`weekStart` is recomputed from the clock, passed in as `ws`). -/
def initWeeklyLeader (st : EngineState) (leader : String) (bestDiff : ℚ) (ws : Nat) :
    EngineState :=
  { st with weeklyLeader := leader, weeklyBestDiff := bestDiff, weekStart := ws }

/-- Go source: the cooldown key `fmt.Sprintf("%s:%s", alert.MinerIP, alert.Type)`. -/
def cooldownKey (ip : String) (t : AlertType) : String :=
  ip ++ ":" ++ t.str

/-- The 5-minute cooldown window of `AlertEngine.sendAlert`, in seconds. -/
def cooldownWindow : Nat := 300

/-- Go source: `AlertEngine.sendAlert`. Returns whether the alert was actually
emitted (`true` = it passed the cooldown gate and was logged / dispatched)
together with the updated cooldown map. A suppressed alert leaves the map
untouched (the early `return` fires before the map write). -/
def sendAlert (cool : String → Option Nat) (now : Nat) (a : Alert) :
    Bool × (String → Option Nat) :=
  match cool (cooldownKey a.minerIP a.type) with
  | some lastAlert =>
      if now - lastAlert < cooldownWindow then (false, cool)
      else (true, fun k => if k = cooldownKey a.minerIP a.type then some now else cool k)
  | none => (true, fun k => if k = cooldownKey a.minerIP a.type then some now else cool k)

/-- One guarded emission inside `CheckSnapshot`/`CheckOffline`: the Go pattern
`if cond { e.sendAlert(a) }`, threading the cooldown map and accumulating the
alerts that were actually emitted. -/
def snapStep (acc : (String → Option Nat) × List Alert) (cond : Bool) (now : Nat)
    (a : Alert) : (String → Option Nat) × List Alert :=
  if cond then
    let r := sendAlert acc.1 now a
    (r.2, acc.2 ++ if r.1 then [a] else [])
  else acc

/-- Go source: the `dropPercent := ((lastHash - snap.HashRate) / lastHash) * 100`
computation of `CheckSnapshot` (zero when no previous hashrate is recorded —
in that case the drop rule is skipped anyway). -/
def hashrateDropPercentOf (st : EngineState) (snap : MinerSnapshot) : ℚ :=
  match st.lastHashrate snap.minerIP with
  | some lastHash => ((lastHash - snap.hashRate) / lastHash) * 100
  | none => 0

/-- Go source: the guard of the hashrate-drop rule in `CheckSnapshot`:
a previous hashrate exists and is positive, the threshold is configured,
and the computed drop exceeds the threshold. -/
def hashrateDropCond (cfg : AlertConfig) (st : EngineState) (snap : MinerSnapshot) : Bool :=
  match st.lastHashrate snap.minerIP with
  | some lastHash =>
      decide (0 < lastHash) && decide (0 < cfg.hashrateDropPercent) &&
        decide (cfg.hashrateDropPercent < hashrateDropPercentOf st snap)
  | none => false

/-- Go source: the guard of the new-best-difficulty rule in `CheckSnapshot`. -/
def newBestDiffCond (cfg : AlertConfig) (st : EngineState) (snap : MinerSnapshot) : Bool :=
  cfg.onNewBestDiff &&
    match st.lastBestDiff snap.minerIP with
    | some lastBest => decide (lastBest < snap.bestDiffSess)
    | none => false

/-- Go source: the guard of the temperature rule in `CheckSnapshot`. -/
def tempCond (cfg : AlertConfig) (snap : MinerSnapshot) : Bool :=
  decide (0 < cfg.tempAbove) && decide (cfg.tempAbove < snap.temperature)

/-- Go source: the guard of the fan-RPM rule in `CheckSnapshot`:
`e.config.FanRPMBelow > 0 && snap.FanRPM < e.config.FanRPMBelow && snap.FanRPM > 0`. -/
def fanCond (cfg : AlertConfig) (snap : MinerSnapshot) : Bool :=
  decide (0 < cfg.fanRPMBelow) && decide (snap.fanRPM < cfg.fanRPMBelow) &&
    decide (0 < snap.fanRPM)

/-- Go source: the guard of the WiFi-signal rule in `CheckSnapshot`. -/
def wifiCond (cfg : AlertConfig) (snap : MinerSnapshot) : Bool :=
  decide (cfg.wifiSignalBelow < 0) && decide (snap.wifiRSSI < cfg.wifiSignalBelow)

/-- Go source: the guard of the pool-connection rule in `CheckSnapshot`. -/
def poolCond (cfg : AlertConfig) (snap : MinerSnapshot) : Bool :=
  cfg.onPoolDisconnected && !snap.poolConnected

/-- The high-temperature alert record built by `CheckSnapshot`. -/
def tempAlertOf (snap : MinerSnapshot) : Alert :=
  { type := AlertType.tempHigh, minerIP := snap.minerIP, minerName := snap.hostname
    value := snap.temperature }

/-- The hashrate-drop alert record built by `CheckSnapshot`. -/
def dropAlertOf (st : EngineState) (snap : MinerSnapshot) : Alert :=
  { type := AlertType.hashrateDrop, minerIP := snap.minerIP, minerName := snap.hostname
    value := hashrateDropPercentOf st snap }

/-- The low-fan alert record built by `CheckSnapshot`. -/
def fanAlertOf (snap : MinerSnapshot) : Alert :=
  { type := AlertType.fanLow, minerIP := snap.minerIP, minerName := snap.hostname
    value := (snap.fanRPM : ℚ) }

/-- The weak-WiFi alert record built by `CheckSnapshot`. -/
def wifiAlertOf (snap : MinerSnapshot) : Alert :=
  { type := AlertType.wifiWeak, minerIP := snap.minerIP, minerName := snap.hostname
    value := (snap.wifiRSSI : ℚ) }

/-- The pool-disconnected alert record built by `CheckSnapshot`. -/
def poolAlertOf (snap : MinerSnapshot) : Alert :=
  { type := AlertType.poolDisconnected, minerIP := snap.minerIP
    minerName := snap.hostname, value := 0 }

/-- The new-best-difficulty alert record built by `CheckSnapshot`. -/
def bestAlertOf (snap : MinerSnapshot) : Alert :=
  { type := AlertType.newBestDiff, minerIP := snap.minerIP, minerName := snap.hostname
    value := snap.bestDiffSess }

/-- The cooldown map and emitted-alert list produced by one pass of
`AlertEngine.CheckSnapshot`, rule by rule in source order. -/
def checkSnapshotAcc (cfg : AlertConfig) (st : EngineState) (snap : MinerSnapshot)
    (now : Nat) : (String → Option Nat) × List Alert :=
  snapStep
    (snapStep
      (snapStep
        (snapStep
          (snapStep
            (snapStep (st.alertCooldown, []) (tempCond cfg snap) now (tempAlertOf snap))
            (hashrateDropCond cfg st snap) now (dropAlertOf st snap))
          (fanCond cfg snap) now (fanAlertOf snap))
        (wifiCond cfg snap) now (wifiAlertOf snap))
      (poolCond cfg snap) now (poolAlertOf snap))
    (newBestDiffCond cfg st snap) now (bestAlertOf snap)

/-- Go source: `AlertEngine.CheckSnapshot`. Runs the per-snapshot rules in
source order (temperature, hashrate drop, fan RPM, WiFi signal, pool
connection, new best difficulty), updates `lastSeen`/`lastHashrate`/
`lastBestDiff` for the device, and returns the emitted alerts. -/
def checkSnapshot (cfg : AlertConfig) (st : EngineState) (snap : MinerSnapshot)
    (now : Nat) : EngineState × List Alert :=
  let ip := snap.minerIP
  let acc := checkSnapshotAcc cfg st snap now
  ( { st with
        lastSeen := fun k => if k = ip then some now else st.lastSeen k
        lastHashrate := fun k => if k = ip then some snap.hashRate else st.lastHashrate k
        lastBestDiff := fun k => if k = ip then some snap.bestDiffSess else st.lastBestDiff k
        alertCooldown := acc.1 },
    acc.2 )

/-- Go source: `AlertEngine.CheckBlock`. Never consults or touches the
cooldown map or any other engine state; emits (logs or dispatches) exactly
when the block-found feature is enabled. -/
def checkBlock (cfg : AlertConfig) (st : EngineState) (_b : Block) :
    EngineState × Bool :=
  if cfg.onBlockFound then (st, true) else (st, false)

/-- Go source: the week-boundary reset at the top of
`AlertEngine.CheckLeaderChange` — if the recomputed week start `ws` lies after
the recorded one, clear the weekly best and leader. -/
def weekRolled (st : EngineState) (ws : Nat) : EngineState :=
  if st.weekStart < ws then
    { st with weeklyBestDiff := 0, weeklyLeader := "", weekStart := ws }
  else st

/-- Go source: `AlertEngine.CheckLeaderChange`. The week-boundary recompute
`currentWeekStart()` is passed in as `ws`. Returns the new state and whether
the new-weekly-leader alert was emitted (logged or dispatched); the cooldown
map is never consulted. -/
def checkLeaderChange (cfg : AlertConfig) (st : EngineState) (share : Share)
    (ws : Nat) : EngineState × Bool :=
  if !cfg.onNewLeader then (st, false)
  else if share.difficulty ≤ (weekRolled st ws).weeklyBestDiff then
    (weekRolled st ws, false)
  else if (weekRolled st ws).weeklyLeader = "" ∨
      (weekRolled st ws).weeklyLeader = share.hostname then
    ({ weekRolled st ws with weeklyBestDiff := share.difficulty
                             weeklyLeader := share.hostname }, false)
  else
    ({ weekRolled st ws with weeklyBestDiff := share.difficulty
                             weeklyLeader := share.hostname }, true)

/-- Go source: the per-miner body of the `CheckOffline` sweep loop. -/
def offlineStep (st : EngineState) (threshold : Nat) (now : Nat)
    (acc : (String → Option Nat) × List Alert) (m : Miner) :
    (String → Option Nat) × List Alert :=
  if !m.enabled then acc
  else
    match st.lastSeen m.ip with
    | none => acc
    | some lastSeen =>
        if threshold < now - lastSeen then
          snapStep acc true now
            { type := AlertType.minerOffline, minerIP := m.ip
              minerName := m.hostname, value := 0 }
        else acc

/-- Go source: `AlertEngine.CheckOffline`. No-op when no offline threshold is
configured; otherwise sweeps the miner list, skipping disabled miners and
miners with no recorded last-seen timestamp. -/
def checkOffline (cfg : AlertConfig) (st : EngineState) (miners : List Miner)
    (now : Nat) : EngineState × List Alert :=
  if cfg.minerOfflineSeconds ≤ 0 then (st, [])
  else
    ({ st with
        alertCooldown :=
          (miners.foldl (offlineStep st cfg.minerOfflineSeconds.toNat now)
            (st.alertCooldown, [])).1 },
     (miners.foldl (offlineStep st cfg.minerOfflineSeconds.toNat now)
       (st.alertCooldown, [])).2)

/-- Go source: `collector.minerConn` — per-device session bookkeeping
(the cancellation handle and raw connection handle are abstracted away;
the Go zero `time.Time` is `none`). -/
structure MinerConn where
  ip : String
  lastSeen : Option Nat
deriving DecidableEq, Repr

/-- The two concurrent loops `Collector.AddMiner` launches for a device. -/
inductive LoopKind where
  | poll
  | webSocket
deriving DecidableEq, Repr

/-- Go source: the `miners` session map of `collector.Collector`. -/
structure CollectorState where
  miners : String → Option MinerConn

/-- Go source: `Collector.AddMiner` — no-op if the address is already
monitored; otherwise registers a fresh `minerConn` and launches the polling
and WebSocket loops (returned as the list of loops started). -/
def addMiner (c : CollectorState) (ip : String) : CollectorState × List LoopKind :=
  match c.miners ip with
  | some _ => (c, [])
  | none =>
      ({ miners := fun k => if k = ip then some { ip := ip, lastSeen := none }
                            else c.miners k },
       [LoopKind.poll, LoopKind.webSocket])

/-- Go source: `Collector.RemoveMiner` — cancels and deletes the session
entry if present; idempotent. -/
def removeMiner (c : CollectorState) (ip : String) : CollectorState :=
  match c.miners ip with
  | some _ => { miners := fun k => if k = ip then none else c.miners k }
  | none => c

/-- Go source: the `lastSeen` update performed by `Collector.fetchAndStore`
after a successful poll. -/
def pollTouch (c : CollectorState) (ip : String) (now : Nat) : CollectorState :=
  match c.miners ip with
  | some conn =>
      { miners := fun k => if k = ip then some { conn with lastSeen := some now }
                           else c.miners k }
  | none => c

/-- The collector session registry together with the alert evaluator —
the two holders of per-device monitoring state named by the spec. -/
structure SystemState where
  collector : CollectorState
  engine : EngineState

/-- Go source: `Server.handleAddMiner` path into `Collector.AddMiner`
(the alert engine is not touched by add). -/
def sysAddMiner (s : SystemState) (ip : String) : SystemState :=
  { s with collector := (addMiner s.collector ip).1 }

/-- Go source: `Server.handleRemoveMiner` path into `Collector.RemoveMiner`
(the alert engine is not touched by removal). -/
def sysRemoveMiner (s : SystemState) (ip : String) : SystemState :=
  { s with collector := removeMiner s.collector ip }

/-- Go source: the `forwardEvents` snapshot branch — a polled snapshot is fed
to `AlertEngine.CheckSnapshot` (and its poll updates the session's last-seen). -/
def sysProcessSnapshot (cfg : AlertConfig) (s : SystemState) (snap : MinerSnapshot)
    (now : Nat) : SystemState × List Alert :=
  let r := checkSnapshot cfg s.engine snap now
  ({ collector := pollTouch s.collector snap.minerIP now, engine := r.1 }, r.2)

/-- A system with no devices and a fresh alert engine. -/
def freshSystem (ws : Nat) : SystemState :=
  { collector := { miners := fun _ => none }, engine := newAlertEngine ws }

/-- Go source: `api.Message` — a WebSocket fan-out message (payload abstracted
to its JSON text). -/
structure HubMessage where
  type : String
  data : String
deriving DecidableEq, Repr

/-- Go source: `api.WebSocketHub` — the subscriber set (abstracted to ids),
the bounded broadcast queue, and the count of drop log lines emitted. -/
structure HubState where
  clients : List Nat
  queue : List HubMessage
  dropLogCount : Nat
deriving DecidableEq, Repr

/-- Capacity of the hub's buffered broadcast channel (`make(chan Message, 256)`). -/
def broadcastCap : Nat := 256

/-- Go source: `WebSocketHub.Broadcast` — `select` with a `default` branch:
enqueue when the buffered channel has room, otherwise drop the message and
log the drop. Total (returns in either case, never blocks). -/
def broadcast (h : HubState) (msg : HubMessage) : HubState :=
  if h.queue.length < broadcastCap then { h with queue := h.queue ++ [msg] }
  else { h with dropLogCount := h.dropLogCount + 1 }

/-! Concrete devices, configurations and events used to instantiate the
claims below. -/

/-- An alert configuration with every threshold zero and every toggle off. -/
def cfg0 : AlertConfig :=
  { webhookURL := ""
    minerOfflineSeconds := 0
    tempAbove := 0
    hashrateDropPercent := 0
    fanRPMBelow := 0
    wifiSignalBelow := 0
    onShareRejected := false
    onPoolDisconnected := false
    onNewBestDiff := false
    onBlockFound := false
    onNewLeader := false }

/-- A share from device "minerB" at difficulty 600. -/
def shareB600 : Share :=
  { minerIP := "10.0.0.2", hostname := "minerB", asicNum := 0
    difficulty := 600, jobID := "18" }

/-- A share from device "minerD" at difficulty 20. -/
def shareD20 : Share :=
  { minerIP := "10.0.0.4", hostname := "minerD", asicNum := 1
    difficulty := 20, jobID := "2a" }

/-- A benign snapshot skeleton: connected pool, nothing out of range. -/
def snapBase : MinerSnapshot :=
  { minerIP := "192.168.1.7", hostname := "bitaxe", hashRate := 0
    temperature := 0, fanRPM := 0, wifiRSSI := 0, poolConnected := true
    bestDiffSess := 0 }

def snap580 : MinerSnapshot := { snapBase with hashRate := 580 }

def snap300 : MinerSnapshot := { snapBase with hashRate := 300 }

/-- The C3 scenario configuration: a 20% hashrate-drop threshold. -/
def cfgDrop20 : AlertConfig := { cfg0 with hashrateDropPercent := 20 }

/-- The C6 counterexample: fan floor 1000 RPM, snapshot reporting 0 RPM. -/
def cfgFan1000 : AlertConfig := { cfg0 with fanRPMBelow := 1000 }

def snapFan0 : MinerSnapshot :=
  { minerIP := "10.1.1.1", hostname := "mx", hashRate := 0, temperature := 0
    fanRPM := 0, wifiRSSI := 0, poolConnected := true, bestDiffSess := 0 }

/-- The C6 witness data: fan floor 2000 RPM, snapshot reporting 700 RPM. -/
def cfgFan2000 : AlertConfig := { cfg0 with fanRPMBelow := 2000 }

def snapFan700 : MinerSnapshot :=
  { minerIP := "10.1.1.2", hostname := "my", hashRate := 0, temperature := 0
    fanRPM := 700, wifiRSSI := 0, poolConnected := true, bestDiffSess := 0 }

/-- The C3 witness data: only the temperature ceiling is configured. -/
def cfgTemp40 : AlertConfig := { cfg0 with tempAbove := 40 }

def snapHot : MinerSnapshot :=
  { minerIP := "10.1.1.3", hostname := "mz", hashRate := 0, temperature := 55
    fanRPM := 0, wifiRSSI := 0, poolConnected := true, bestDiffSess := 0 }

/-- The C10 witness data: 60-second offline threshold, one enabled miner
last seen at instant 0, swept at instant 100. -/
def cfgOff60 : AlertConfig := { cfg0 with minerOfflineSeconds := 60 }

def minerEnabled : Miner := { ip := "10.2.2.2", hostname := "mo", enabled := true }

def engineSeen0 : EngineState :=
  { newAlertEngine 0 with lastSeen := fun _ => some 0 }

/-- The C8 counterexample snapshot: hashrate 580 from the removed-and-re-added
device. -/
def ipRoundTrip : String := "192.168.1.50"

def snapRoundTrip : MinerSnapshot :=
  { minerIP := ipRoundTrip, hostname := "mh", hashRate := 580, temperature := 0
    fanRPM := 0, wifiRSSI := 0, poolConnected := true, bestDiffSess := 0 }

/-- A registry already monitoring address "a" (C9 witness). -/
def colA : CollectorState :=
  { miners := fun k => if k = "a" then some { ip := "a", lastSeen := none } else none }

/-- A hub whose broadcast queue is exactly full (C7 witness). -/
def msgW : HubMessage := { type := "share", data := "x" }

def hubFull : HubState :=
  { clients := [0], queue := List.replicate broadcastCap msgW, dropLogCount := 0 }

/-! The share parser (`ShareParser.Parse`) and its two regular expressions.

A Go string is modelled as its character list. The two patterns,

    asic_result:.*Job ID:\s*(\d+)\s+AsicNr:\s*(\d+).*diff\s+([\d.]+)       (NerdQAxe)
    asic_result:.*ID:\s*([0-9a-fA-F]+),\s*ASIC nr:\s*(\d+).*diff\s+([\d.]+) (AxeOS)

use only literals and greedy repetitions of single-character classes, so they
are embedded as item lists over exactly those constructs, matched with Go's
(leftmost-first, greedy-with-backtracking) semantics: the unanchored search
tries each start position from the left, and a greedy repetition tries the
longest run first, giving back one character at a time. -/

/-- Go regexp `\d`. -/
def digitC (c : Char) : Bool := '0' ≤ c && c ≤ '9'

/-- Go regexp `.` (any character except newline). -/
def anyC (c : Char) : Bool := c != '\n'

/-- Go regexp `\s` (== `[\t\n\f\r ]`). -/
def spaceC (c : Char) : Bool :=
  c == ' ' || c == '\t' || c == '\n' || c == '\x0c' || c == '\r'

/-- Go regexp `[0-9a-fA-F]`. -/
def hexC (c : Char) : Bool :=
  digitC c || ('a' ≤ c && c ≤ 'f') || ('A' ≤ c && c ≤ 'F')

/-- Go regexp `[\d.]`. -/
def dotDigitC (c : Char) : Bool := digitC c || c == '.'

/-- One element of an embedded pattern: a literal, or a greedy repetition
(zero-or-more, one-or-more, or capturing one-or-more) of a character class. -/
inductive RItem where
  | lit : List Char → RItem
  | star : (Char → Bool) → RItem
  | plus : (Char → Bool) → RItem
  | group : (Char → Bool) → RItem

/-- Matches a literal prefix, returning the remainder. -/
def matchLit : List Char → List Char → Option (List Char)
  | [], s => some s
  | _ :: _, [] => none
  | c :: l, x :: s => if x = c then matchLit l s else none

/-- Length of the greedy run of class `p` at the front of the input. -/
def runLen (p : Char → Bool) : List Char → Nat
  | [] => 0
  | c :: s => if p c then runLen p s + 1 else 0

/-- Greedy backtracking for `star`: try consuming `i` characters, then
`i - 1`, …, down to `0`. -/
def tryFrom (f : List Char → Option (List (List Char))) (s : List Char) :
    Nat → Option (List (List Char))
  | 0 => f s
  | i + 1 =>
      match f (s.drop (i + 1)) with
      | some r => some r
      | none => tryFrom f s i

/-- Greedy backtracking for `plus`: like `tryFrom` but consuming at least
one character. -/
def tryFrom1 (f : List Char → Option (List (List Char))) (s : List Char) :
    Nat → Option (List (List Char))
  | 0 => none
  | i + 1 =>
      match f (s.drop (i + 1)) with
      | some r => some r
      | none => tryFrom1 f s i

/-- Greedy backtracking for a capturing `group`: like `tryFrom1`, recording
the consumed run as a capture. -/
def tryGroup (f : List Char → Option (List (List Char))) (s : List Char) :
    Nat → Option (List (List Char))
  | 0 => none
  | i + 1 =>
      match f (s.drop (i + 1)) with
      | some r => some (s.take (i + 1) :: r)
      | none => tryGroup f s i

/-- Matches an item list against a prefix of the input (the overall match
need not extend to the end, mirroring an unanchored Go regexp), returning
the list of captured groups in order. -/
def matchItems : List RItem → List Char → Option (List (List Char))
  | [], _ => some []
  | RItem.lit l :: rest, s =>
      match matchLit l s with
      | some s2 => matchItems rest s2
      | none => none
  | RItem.star p :: rest, s => tryFrom (matchItems rest) s (runLen p s)
  | RItem.plus p :: rest, s =>
      if runLen p s = 0 then none else tryFrom1 (matchItems rest) s (runLen p s)
  | RItem.group p :: rest, s =>
      if runLen p s = 0 then none else tryGroup (matchItems rest) s (runLen p s)

/-- Unanchored leftmost search (Go `FindStringSubmatch`): try each start
position from the left and return the first structured match. -/
def regexFindAux (items : List RItem) : List Char → Option (List (List Char))
  | [] => matchItems items []
  | c :: s =>
      match matchItems items (c :: s) with
      | some r => some r
      | none => regexFindAux items (s)

/-- Go source: `shareRegexNerdQAxe`, as an item list. -/
def shareItemsNerdQAxe : List RItem :=
  [RItem.lit "asic_result:".data, RItem.star anyC,
   RItem.lit "Job ID:".data, RItem.star spaceC, RItem.group digitC,
   RItem.plus spaceC, RItem.lit "AsicNr:".data, RItem.star spaceC,
   RItem.group digitC, RItem.star anyC, RItem.lit "diff".data,
   RItem.plus spaceC, RItem.group dotDigitC]

/-- Go source: `shareRegexAxeOS`, as an item list. -/
def shareItemsAxeOS : List RItem :=
  [RItem.lit "asic_result:".data, RItem.star anyC,
   RItem.lit "ID:".data, RItem.star spaceC, RItem.group hexC,
   RItem.lit ",".data, RItem.star spaceC, RItem.lit "ASIC nr:".data,
   RItem.star spaceC, RItem.group digitC, RItem.star anyC,
   RItem.lit "diff".data, RItem.plus spaceC, RItem.group dotDigitC]

/-- Decimal value of a digit string. -/
def digitsVal (s : List Char) : Nat :=
  s.foldl (fun acc c => acc * 10 + (c.toNat - '0'.toNat)) 0

/-- Go source: `strconv.Atoi` on a `\d+` capture with the error discarded —
the decimal value, clamped to the largest 64-bit int on range overflow
(`ParseInt` returns the clamped bound together with `ErrRange`). -/
def goAtoi (s : List Char) : Int :=
  if (digitsVal s : Int) ≤ 2 ^ 63 - 1 then (digitsVal s : Int) else 2 ^ 63 - 1

/-- Go source: `strconv.ParseFloat` on a `[\d.]+` capture with the error
discarded, under exact decimal (rational) semantics: `dd`, `dd.dd`, `dd.`
and `.dd` parse to their decimal value; a bare dot or a second dot is a
parse error and yields the zero value. -/
def goParseFloat (s : List Char) : ℚ :=
  if (s.dropWhile (· != '.')).isEmpty then (digitsVal s : ℚ)
  else if ((s.dropWhile (· != '.')).tail).contains '.' then 0
  else if s.takeWhile (· != '.') = [] ∧ (s.dropWhile (· != '.')).tail = [] then 0
  else (digitsVal (s.takeWhile (· != '.')) : ℚ) +
    (digitsVal ((s.dropWhile (· != '.')).tail) : ℚ) /
      (10 ^ ((s.dropWhile (· != '.')).tail).length : ℚ)

/-- Go source: `ShareParser.Parse` — try the NerdQAxe pattern first, then
the AxeOS pattern, returning the first successful structured match as a
Share (hostname is left at its zero value; the timestamp is omitted);
a line matching neither pattern yields no event. Total by construction:
no error outcome exists. -/
def shareParse (minerIP : String) (line : List Char) : Option Share :=
  match regexFindAux shareItemsNerdQAxe line with
  | some caps =>
      some { minerIP := minerIP, hostname := "", asicNum := goAtoi (caps.getD 1 [])
             difficulty := goParseFloat (caps.getD 2 [])
             jobID := String.mk (caps.getD 0 []) }
  | none =>
      match regexFindAux shareItemsAxeOS line with
      | some caps =>
          some { minerIP := minerIP, hostname := "", asicNum := goAtoi (caps.getD 1 [])
                 difficulty := goParseFloat (caps.getD 2 [])
                 jobID := String.mk (caps.getD 0 []) }
      | none => none

/-- Decimal digit string of a natural number (no leading zeros except "0"). -/
def natToDigits (n : Nat) : List Char :=
  if _h : n < 10 then [Nat.digitChar n]
  else natToDigits (n / 10) ++ [Nat.digitChar (n % 10)]
decreasing_by exact Nat.div_lt_self (by omega) (by omega)

/-- Lowercase hexadecimal digit string of a natural number. -/
def natToHex (n : Nat) : List Char :=
  if _h : n < 16 then [Nat.digitChar n]
  else natToHex (n / 16) ++ [Nat.digitChar (n % 16)]
decreasing_by exact Nat.div_lt_self (by omega) (by omega)

/-- The body of a well-formed NerdQAxe share line, from the pattern trigger
on, with job id `j`, ASIC index `a` and difficulty `m.f` (right-nested so
each pattern token's segment boundary is explicit). -/
def nerdCore (j a m f : Nat) : List Char :=
  "asic_result:".data ++
    (" (Pri) ".data ++
      ("Job ID:".data ++
        (' ' :: (natToDigits j ++
          (' ' :: ("AsicNr:".data ++
            (' ' :: (natToDigits a ++
              (' ' :: ("Ver: 23B82202 Nonce F854197E; Extranonce2 001c0041".data ++
                (' ' :: ("diff".data ++
                  (' ' :: (natToDigits m ++
                    ('.' :: (natToDigits f ++ "/18304/3.70G".data))))))))))))))))

/-- A well-formed NerdQAxe share line in the documented firmware format,
with timestamp `ts`, job id `j`, ASIC index `a` and difficulty `m.f`. -/
def nerdLine (ts j a m f : Nat) : List Char :=
  "I (".data ++ (natToDigits ts ++ ") ".data) ++ nerdCore j a m f

/-- The body of a well-formed AxeOS share line, from the pattern trigger on,
with hexadecimal job id `hx`, ASIC index `a` and difficulty `m.f`. -/
def axeCore (hx a m f : Nat) : List Char :=
  "asic_result:".data ++
    (' ' :: ("ID:".data ++
      (' ' :: (natToHex hx ++
        (',' :: (' ' :: ("ASIC nr:".data ++
          (' ' :: (natToDigits a ++
            (',' :: (' ' :: ("ver: 21BF0000 Nonce 383C02D4".data ++
              (' ' :: ("diff".data ++
                (' ' :: (natToDigits m ++
                  ('.' :: (natToDigits f ++ " of 2048.".data))))))))))))))))))

/-- A well-formed AxeOS share line in the documented firmware format, with
timestamp `ts`, hexadecimal job id `hx`, ASIC index `a` and difficulty `m.f`. -/
def axeLine (ts hx a m f : Nat) : List Char :=
  "I (".data ++ (natToDigits ts ++ ") ".data) ++ axeCore hx a m f

/-- A contrived line matched by BOTH patterns, with different captures:
NerdQAxe reads job 5 / ASIC 3, AxeOS would read job "ab" / ASIC 2. -/
def bothLine : List Char :=
  "asic_result: ID: ab, ASIC nr: 2 Job ID: 5 AsicNr: 3 diff 7".data

/-- Decidable substring test: does the token occur anywhere in the line? -/
def hasSub (w s : List Char) : Bool :=
  (List.range (s.length + 1)).any (fun m => (matchLit w (s.drop m)).isSome)

/-- The token `w` matches at no position of `s` (so no pattern containing
`lit w` can match anywhere in `s`). -/
def noSub (w s : List Char) : Prop :=
  ∀ m, matchLit w (s.drop m) = none

/-! Helper lemmas about the cooldown gate and the guarded-emission step. -/

/-- The `AlertType.str` string constants are pairwise distinct. -/
theorem AlertType.str_injective : ∀ (t u : AlertType), t.str = u.str → t = u := by
  decide

/-- Distinct alert kinds give distinct cooldown keys for the same device. -/
theorem cooldownKey_ne (ip : String) (t u : AlertType) (h : t ≠ u) :
    cooldownKey ip t ≠ cooldownKey ip u := by
  intro heq
  apply h
  apply AlertType.str_injective
  apply String.ext
  have h2 := congrArg String.data heq
  simp only [cooldownKey, String.data_append, List.append_assoc] at h2
  exact List.append_cancel_left (List.append_cancel_left h2)

/-- Equation lemma for `sendAlert` when no cooldown entry exists. -/
theorem sendAlert_none (cool : String → Option Nat) (now : Nat) (a : Alert)
    (hc : cool (cooldownKey a.minerIP a.type) = none) :
    sendAlert cool now a =
      (true, fun k => if k = cooldownKey a.minerIP a.type then some now else cool k) := by
  unfold sendAlert
  rw [hc]

/-- Equation lemma for `sendAlert` when a cooldown entry exists. -/
theorem sendAlert_some (cool : String → Option Nat) (now : Nat) (a : Alert) (t : Nat)
    (hc : cool (cooldownKey a.minerIP a.type) = some t) :
    sendAlert cool now a =
      if now - t < cooldownWindow then (false, cool)
      else (true, fun k => if k = cooldownKey a.minerIP a.type then some now else cool k) := by
  unfold sendAlert
  rw [hc]

/-- `sendAlert` suppresses exactly when the key fired within the window. -/
theorem sendAlert_false_iff (cool : String → Option Nat) (now : Nat) (a : Alert) :
    (sendAlert cool now a).1 = false ↔
      ∃ t, cool (cooldownKey a.minerIP a.type) = some t ∧ now - t < cooldownWindow := by
  cases hc : cool (cooldownKey a.minerIP a.type)
  · rw [sendAlert_none cool now a hc]
    simp
  · rw [sendAlert_some cool now a _ hc]
    split
    · simp_all
    · simp_all

/-- A cooldown-suppressed `sendAlert` leaves the cooldown map untouched. -/
theorem sendAlert_suppressed_snd {cool : String → Option Nat} {now : Nat} {a : Alert}
    (h : (sendAlert cool now a).1 = false) : (sendAlert cool now a).2 = cool := by
  rcases (sendAlert_false_iff cool now a).1 h with ⟨t, ht, hlt⟩
  rw [sendAlert_some cool now a t ht, if_pos hlt]

/-- `sendAlert` fires when no fresh cooldown entry exists for its key. -/
theorem sendAlert_fires {cool : String → Option Nat} {now : Nat} {a : Alert}
    (h : ∀ t, cool (cooldownKey a.minerIP a.type) = some t → cooldownWindow ≤ now - t) :
    (sendAlert cool now a).1 = true := by
  cases hc : cool (cooldownKey a.minerIP a.type) with
  | none => rw [sendAlert_none cool now a hc]
  | some t =>
      have h2 := h t hc
      have h3 : ¬(now - t < cooldownWindow) := by
        unfold cooldownWindow at h2 ⊢
        omega
      rw [sendAlert_some cool now a t hc, if_neg h3]

/-- `sendAlert` only writes its own cooldown key. -/
theorem sendAlert_snd_apply_ne (cool : String → Option Nat) (now : Nat) (a : Alert)
    {k : String} (hk : k ≠ cooldownKey a.minerIP a.type) :
    (sendAlert cool now a).2 k = cool k := by
  cases hc : cool (cooldownKey a.minerIP a.type)
  · rw [sendAlert_none cool now a hc]
    simp [hk]
  · rw [sendAlert_some cool now a _ hc]
    split
    · rfl
    · simp [hk]

/-- A guarded emission with a false guard is a no-op. -/
theorem snapStep_false (acc : (String → Option Nat) × List Alert) (now : Nat)
    (a : Alert) : snapStep acc false now a = acc := rfl

/-- Alerts already emitted survive a guarded-emission step. -/
theorem mem_snapStep_of_mem {acc : (String → Option Nat) × List Alert}
    {cond : Bool} {now : Nat} {a b : Alert} (h : b ∈ acc.2) :
    b ∈ (snapStep acc cond now a).2 := by
  unfold snapStep
  split
  · exact List.mem_append_left _ h
  · exact h

/-- An alert emitted by a guarded step is either old or the step's own alert. -/
theorem mem_of_mem_snapStep {acc : (String → Option Nat) × List Alert}
    {cond : Bool} {now : Nat} {a b : Alert}
    (h : b ∈ (snapStep acc cond now a).2) : b ∈ acc.2 ∨ b = a := by
  unfold snapStep at h
  split at h
  · rcases List.mem_append.1 h with h2 | h2
    · exact Or.inl h2
    · split at h2
      · exact Or.inr (List.mem_singleton.1 h2)
      · cases h2
  · exact Or.inl h

/-- A guarded step whose guard holds and whose `sendAlert` fires appends
its alert. -/
theorem snapStep_fires (acc : (String → Option Nat) × List Alert) (now : Nat)
    (a : Alert) (h : (sendAlert acc.1 now a).1 = true) :
    (snapStep acc true now a).2 = acc.2 ++ [a] := by
  unfold snapStep
  simp [h]

/-- A guarded step only writes its own alert's cooldown key. -/
theorem snapStep_fst_apply_ne (acc : (String → Option Nat) × List Alert)
    (cond : Bool) (now : Nat) (a : Alert) {k : String}
    (hk : k ≠ cooldownKey a.minerIP a.type) :
    (snapStep acc cond now a).1 k = acc.1 k := by
  unfold snapStep
  split
  · exact sendAlert_snd_apply_ne acc.1 now a hk
  · rfl

/-- An alert produced by one offline-sweep step is old, or belongs to an
enabled miner with a stale recorded last-seen timestamp. -/
theorem mem_of_offlineStep {st : EngineState} {threshold now : Nat}
    {acc : (String → Option Nat) × List Alert} {m : Miner} {a : Alert}
    (h : a ∈ (offlineStep st threshold now acc m).2) :
    a ∈ acc.2 ∨
      (m.enabled = true ∧ a.minerIP = m.ip ∧ a.type = AlertType.minerOffline ∧
        ∃ t, st.lastSeen m.ip = some t ∧ threshold < now - t) := by
  unfold offlineStep at h
  cases hm : m.enabled
  · rw [hm, if_pos (by decide)] at h
    exact Or.inl h
  · rw [hm, if_neg (by decide)] at h
    cases hl : st.lastSeen m.ip with
    | none => simp only [hl] at h; exact Or.inl h
    | some t =>
        simp only [hl] at h
        by_cases ht : threshold < now - t
        · rw [if_pos ht] at h
          rcases mem_of_mem_snapStep h with h2 | h2
          · exact Or.inl h2
          · subst h2
            exact Or.inr ⟨rfl, rfl, rfl, t, rfl, ht⟩
        · rw [if_neg ht] at h
          exact Or.inl h

/-- Folding the offline-sweep step over a miner list only adds alerts for
enabled miners with a stale recorded last-seen timestamp. -/
theorem mem_offline_foldl {st : EngineState} {threshold now : Nat} :
    ∀ (ms : List Miner) (acc : (String → Option Nat) × List Alert) (a : Alert),
      a ∈ (ms.foldl (offlineStep st threshold now) acc).2 →
      a ∈ acc.2 ∨ ∃ m ∈ ms, m.enabled = true ∧ a.minerIP = m.ip ∧
        a.type = AlertType.minerOffline ∧
        ∃ t, st.lastSeen m.ip = some t ∧ threshold < now - t
  | [], _, _, h => Or.inl h
  | m :: ms, acc, a, h => by
      rcases mem_offline_foldl ms (offlineStep st threshold now acc m) a h with
        h2 | ⟨m', hm', hs⟩
      · rcases mem_of_offlineStep h2 with h3 | h3
        · exact Or.inl h3
        · exact Or.inr ⟨m, List.mem_cons_self m ms, h3⟩
      · exact Or.inr ⟨m', List.mem_cons_of_mem m hm', hs⟩

/-- C2: every alert routed through the cooldown gate is suppressed entirely
(no delivery, no queued or delayed copy, no state change) exactly when the
same (device, kind) pair actually fired less than the 5-minute window before
`now`, and is delivered once the window has elapsed; the block-found and
new-weekly-leader paths never pass through the gate — `CheckBlock` and
`CheckLeaderChange` neither consult nor modify the cooldown map. -/
theorem cooldown_dedup_spec :
    (∀ (cool : String → Option Nat) (now : Nat) (a : Alert),
        ((sendAlert cool now a).1 = false ↔
          ∃ t, cool (cooldownKey a.minerIP a.type) = some t ∧
            now - t < cooldownWindow) ∧
        ((sendAlert cool now a).1 = false → (sendAlert cool now a).2 = cool)) ∧
    (∀ (cfg : AlertConfig) (st : EngineState) (b : Block),
        checkBlock cfg st b = (st, cfg.onBlockFound)) ∧
    (∀ (cfg : AlertConfig) (st : EngineState) (share : Share) (ws : Nat)
        (cool : String → Option Nat),
        ((checkLeaderChange cfg st share ws).1).alertCooldown = st.alertCooldown ∧
        (checkLeaderChange cfg { st with alertCooldown := cool } share ws).2 =
          (checkLeaderChange cfg st share ws).2) := by
  refine ⟨fun cool now a => ⟨sendAlert_false_iff cool now a,
    fun h => sendAlert_suppressed_snd h⟩, ?_, ?_⟩
  · intro cfg st b
    unfold checkBlock
    cases hb : cfg.onBlockFound <;> simp [hb]
  · intro cfg st share ws cool
    constructor
    · simp only [checkLeaderChange, weekRolled]
      split_ifs <;> rfl
    · simp only [checkLeaderChange, weekRolled]
      split_ifs <;> rfl

/-- C2 witness: with the (device, kind) pair last fired at instant 100, a new
send at instant 200 (inside the 300-second window) is suppressed. -/
theorem cooldown_dedup_spec_witness :
    (sendAlert (fun _ => some 100) 200
      { type := AlertType.tempHigh, minerIP := "10.0.0.1", minerName := "m"
        value := 0 }).1 = false :=
  (cooldown_dedup_spec.1 (fun _ => some 100) 200
    { type := AlertType.tempHigh, minerIP := "10.0.0.1", minerName := "m"
      value := 0 }).1.mpr ⟨100, rfl, by decide⟩

/-- C7: `WebSocketHub.Broadcast` against a full queue returns (it is a total
function of the hub state) with the queue contents and the subscriber set
unchanged, recording the drop in the log counter; with room in the queue the
event is enqueued and nothing else changes. -/
theorem broadcast_drop_spec :
    ∀ (h : HubState) (msg : HubMessage),
      (broadcastCap ≤ h.queue.length →
        broadcast h msg = { h with dropLogCount := h.dropLogCount + 1 }) ∧
      (h.queue.length < broadcastCap →
        broadcast h msg = { h with queue := h.queue ++ [msg] }) := by
  intro h msg
  unfold broadcast
  constructor
  · intro hle
    rw [if_neg (by omega)]
  · intro hlt
    rw [if_pos hlt]

/-- C7 witness: broadcasting into an exactly-full queue drops the message,
bumps the drop counter and leaves queue and subscribers untouched. -/
theorem broadcast_drop_spec_witness :
    broadcast hubFull msgW = { hubFull with dropLogCount := hubFull.dropLogCount + 1 } :=
  (broadcast_drop_spec hubFull msgW).1 (by simp [hubFull])

/-- C9: the registry's add operation is a complete no-op (state unchanged, no
loops launched) when a session already exists for the address; on an absent
address it creates exactly one fresh session entry, launches the polling and
WebSocket loops, and leaves every other address's entry unchanged. -/
theorem addMiner_spec :
    ∀ (c : CollectorState) (ip : String),
      (∀ conn, c.miners ip = some conn → addMiner c ip = (c, [])) ∧
      (c.miners ip = none →
        (addMiner c ip).1.miners ip = some { ip := ip, lastSeen := none } ∧
        (addMiner c ip).2 = [LoopKind.poll, LoopKind.webSocket] ∧
        ∀ k, k ≠ ip → (addMiner c ip).1.miners k = c.miners k) := by
  intro c ip
  constructor
  · intro conn hc
    unfold addMiner
    rw [hc]
  · intro hc
    unfold addMiner
    rw [hc]
    exact ⟨by simp, rfl, fun k hk => by simp [hk]⟩

/-- C9 witness: adding the already-monitored address "a" changes nothing and
launches nothing. -/
theorem addMiner_spec_witness : addMiner colA "a" = (colA, []) :=
  (addMiner_spec colA "a").1 { ip := "a", lastSeen := none } (by decide)

/-- C10: the offline sweep emits an alert only for an enabled miner that has
a recorded last-seen timestamp whose age exceeds the configured (positive)
offline threshold; a device with no recorded last-seen since process start,
or a disabled device, is never alerted on, regardless of elapsed time. -/
theorem checkOffline_spec :
    ∀ (cfg : AlertConfig) (st : EngineState) (miners : List Miner) (now : Nat)
      (a : Alert), a ∈ (checkOffline cfg st miners now).2 →
      0 < cfg.minerOfflineSeconds ∧
      ∃ m ∈ miners, m.enabled = true ∧ a.minerIP = m.ip ∧
        a.type = AlertType.minerOffline ∧
        ∃ t, st.lastSeen m.ip = some t ∧ cfg.minerOfflineSeconds.toNat < now - t := by
  intro cfg st miners now a h
  unfold checkOffline at h
  by_cases hz : cfg.minerOfflineSeconds ≤ 0
  · rw [if_pos hz] at h
    cases h
  · rw [if_neg hz] at h
    refine ⟨by omega, ?_⟩
    rcases mem_offline_foldl miners (st.alertCooldown, []) a h with h2 | h2
    · cases h2
    · exact h2

/-- C10 witness: the sweep at instant 100 with a 60-second threshold and an
enabled miner last seen at instant 0 emits its alert, so the theorem's
hypotheses are satisfiable. -/
theorem checkOffline_spec_witness : 0 < cfgOff60.minerOfflineSeconds :=
  (checkOffline_spec cfgOff60 engineSeen0 [minerEnabled] 100
    { type := AlertType.minerOffline, minerIP := minerEnabled.ip
      minerName := minerEnabled.hostname, value := 0 } (by decide)).1

/-- C1 counterexample: the weekly-leader state is seeded from stored history
(previous leader "minerA" at weekly best 500), and the very first share
processed after the restart — difficulty 600 from "minerB", numerically the
week's best — DOES fire the new-weekly-leader alert, refuting the claim that
the first share processed after a restart never fires it. -/
theorem checkLeaderChange_restart_cex :
    (checkLeaderChange { cfg0 with onNewLeader := true }
      (initWeeklyLeader (newAlertEngine 1000) "minerA" 500 1000)
      shareB600 1000).2 = true := by
  decide

/-- C1 (amended): with the new-leader feature enabled, the alert fires iff —
after the week-boundary reset — the share's difficulty strictly exceeds the
recorded weekly best, a previous weekly leader was recorded, and that leader
differs from the share's device; consequently the first share processed after
a restart never fires when the seeded history recorded no leader, while it
can legitimately fire when the share overtakes a different seeded leader. -/
theorem checkLeaderChange_spec :
    ∀ (cfg : AlertConfig) (st : EngineState) (share : Share) (ws : Nat),
      cfg.onNewLeader = true →
      (((checkLeaderChange cfg st share ws).2 = true ↔
        ((weekRolled st ws).weeklyBestDiff < share.difficulty ∧
         (weekRolled st ws).weeklyLeader ≠ "" ∧
         (weekRolled st ws).weeklyLeader ≠ share.hostname)) ∧
       ∀ best : ℚ, (checkLeaderChange cfg
          (initWeeklyLeader (newAlertEngine ws) "" best ws) share ws).2 = false) := by
  intro cfg st share ws hon
  constructor
  · unfold checkLeaderChange
    rw [hon, if_neg (by decide)]
    split_ifs with h1 h2
    · simp only [Bool.false_eq_true, false_iff, not_and]
      intro hlt
      exact absurd h1 (not_le.2 hlt)
    · simp only [Bool.false_eq_true, false_iff, not_and]
      rcases h2 with h2 | h2
      · intro _ hne
        exact absurd h2 hne
      · intro _ _ hne
        exact absurd h2 hne
    · simp only [true_iff]
      push_neg at h2
      exact ⟨not_le.1 h1, h2.1, h2.2⟩
  · intro best
    have hlead : (weekRolled (initWeeklyLeader (newAlertEngine ws) "" best ws) ws).weeklyLeader
        = "" := by
      unfold weekRolled initWeeklyLeader newAlertEngine
      split <;> rfl
    unfold checkLeaderChange
    rw [hon, if_neg (by decide)]
    split_ifs with h1 h2
    · rfl
    · rfl
    · exact absurd (Or.inl hlead) h2

/-- C1 (amended) witness: a seeded leader "minerC" at weekly best 10 is
overtaken by a first-after-restart share of difficulty 20 from "minerD",
and the alert fires. -/
theorem checkLeaderChange_spec_witness :
    (checkLeaderChange { cfg0 with onNewLeader := true }
      (initWeeklyLeader (newAlertEngine 5) "minerC" 10 5) shareD20 5).2 = true :=
  ((checkLeaderChange_spec { cfg0 with onNewLeader := true }
      (initWeeklyLeader (newAlertEngine 5) "minerC" 10 5) shareD20 5 rfl).1).mpr
    ⟨by decide, by decide, by decide⟩

/-- C3: processing hashrate 580 then 300 for the same device with a 20% drop
threshold emits exactly one hashrate-drop alert, whose computed percentage is
((580 - 300) / 580) * 100; and the drop rule never emits unless a previous
hashrate for the device exists and is positive. -/
theorem hashrate_drop_spec :
    ((checkSnapshot cfgDrop20 (newAlertEngine 0) snap580 0).2 ++
      (checkSnapshot cfgDrop20 (checkSnapshot cfgDrop20 (newAlertEngine 0) snap580 0).1
        snap300 2).2).filter (fun a => decide (a.type = AlertType.hashrateDrop)) =
      [{ type := AlertType.hashrateDrop, minerIP := "192.168.1.7"
         minerName := "bitaxe", value := ((580 - 300) / 580) * 100 }] ∧
    ∀ (cfg : AlertConfig) (st : EngineState) (snap : MinerSnapshot) (now : Nat),
      (st.lastHashrate snap.minerIP = none ∨
        ∃ h, st.lastHashrate snap.minerIP = some h ∧ h ≤ 0) →
      ∀ a ∈ (checkSnapshot cfg st snap now).2, a.type ≠ AlertType.hashrateDrop := by
  constructor
  · have h1 : (checkSnapshot cfgDrop20 (newAlertEngine 0) snap580 0).2 = [] := by decide
    have hkey : (checkSnapshot cfgDrop20 (newAlertEngine 0) snap580 0).1.lastHashrate
        snap300.minerIP = some 580 := by decide
    have hpct : hashrateDropPercentOf (checkSnapshot cfgDrop20 (newAlertEngine 0) snap580 0).1
        snap300 = ((580 - 300) / 580) * 100 := by
      unfold hashrateDropPercentOf
      rw [hkey]
      exact rfl
    have hc1 : tempCond cfgDrop20 snap300 = false := by decide
    have hc3 : fanCond cfgDrop20 snap300 = false := by decide
    have hc4 : wifiCond cfgDrop20 snap300 = false := by decide
    have hc5 : poolCond cfgDrop20 snap300 = false := by decide
    have hc6 : newBestDiffCond cfgDrop20
        (checkSnapshot cfgDrop20 (newAlertEngine 0) snap580 0).1 snap300 = false := by decide
    have hc2 : hashrateDropCond cfgDrop20
        (checkSnapshot cfgDrop20 (newAlertEngine 0) snap580 0).1 snap300 = true := by
      unfold hashrateDropCond
      rw [hkey]
      have d1 : (0:ℚ) < 580 := by norm_num
      have d2 : (0:ℚ) < cfgDrop20.hashrateDropPercent := by norm_num [cfgDrop20, cfg0]
      have d3 : cfgDrop20.hashrateDropPercent <
          hashrateDropPercentOf (checkSnapshot cfgDrop20 (newAlertEngine 0) snap580 0).1
            snap300 := by
        rw [hpct]
        norm_num [cfgDrop20, cfg0]
      simp [d1, d2, d3]
    have hfire : (sendAlert (checkSnapshot cfgDrop20 (newAlertEngine 0) snap580 0).1.alertCooldown
        2 (dropAlertOf (checkSnapshot cfgDrop20 (newAlertEngine 0) snap580 0).1 snap300)).1
        = true := by decide
    have hacc : (checkSnapshotAcc cfgDrop20
        (checkSnapshot cfgDrop20 (newAlertEngine 0) snap580 0).1 snap300 2).2 =
        [dropAlertOf (checkSnapshot cfgDrop20 (newAlertEngine 0) snap580 0).1 snap300] := by
      unfold checkSnapshotAcc
      rw [hc1, hc2, hc3, hc4, hc5, hc6]
      simp only [snapStep_false]
      rw [snapStep_fires
        ((checkSnapshot cfgDrop20 (newAlertEngine 0) snap580 0).1.alertCooldown, []) 2
        (dropAlertOf (checkSnapshot cfgDrop20 (newAlertEngine 0) snap580 0).1 snap300) hfire]
      exact List.nil_append _
    have hsnd : (checkSnapshot cfgDrop20 (checkSnapshot cfgDrop20 (newAlertEngine 0) snap580 0).1
        snap300 2).2 = (checkSnapshotAcc cfgDrop20
          (checkSnapshot cfgDrop20 (newAlertEngine 0) snap580 0).1 snap300 2).2 := rfl
    rw [h1, hsnd, hacc]
    simp [dropAlertOf, hpct]
    exact ⟨rfl, rfl⟩
  · intro cfg st snap now hprev a ha hdrop
    have hcond : hashrateDropCond cfg st snap = false := by
      unfold hashrateDropCond
      rcases hprev with h | ⟨hv, hsome, hle⟩
      · rw [h]
      · rw [hsome]
        have h0 : ¬(0 < hv) := not_lt.2 hle
        simp [h0]
    have ha2 : a ∈ (checkSnapshotAcc cfg st snap now).2 := ha
    unfold checkSnapshotAcc at ha2
    rw [hcond, snapStep_false] at ha2
    rcases mem_of_mem_snapStep ha2 with ha2 | rfl
    · rcases mem_of_mem_snapStep ha2 with ha2 | rfl
      · rcases mem_of_mem_snapStep ha2 with ha2 | rfl
        · rcases mem_of_mem_snapStep ha2 with ha2 | rfl
          · rcases mem_of_mem_snapStep ha2 with ha2 | rfl
            · cases ha2
            · simp [tempAlertOf] at hdrop
          · simp [fanAlertOf] at hdrop
        · simp [wifiAlertOf] at hdrop
      · simp [poolAlertOf] at hdrop
    · simp [bestAlertOf] at hdrop

/-- C3 witness: a run of the drop-rule guard theorem at a state with no
previous hashrate — the only alert emitted is a temperature alert, which is
not a hashrate-drop alert. -/
theorem hashrate_drop_spec_witness :
    ({ type := AlertType.tempHigh, minerIP := "10.1.1.3", minerName := "mz"
       value := 55 } : Alert).type ≠ AlertType.hashrateDrop :=
  hashrate_drop_spec.2 cfgTemp40 (newAlertEngine 0) snapHot 7 (Or.inl rfl)
    { type := AlertType.tempHigh, minerIP := "10.1.1.3", minerName := "mz"
      value := 55 } (by decide)

/-- C6 counterexample: fan floor 1000 RPM is configured, the snapshot reports
0 RPM (below the floor), nothing is cooldown-suppressed — yet no low-fan
alert (indeed no alert at all) is emitted, because the code additionally
requires a strictly positive RPM reading. -/
theorem fan_low_cex :
    (checkSnapshot cfgFan1000 (newAlertEngine 0) snapFan0 0).2 = [] := by
  decide

/-- C6 (amended): with the fan floor configured (floor > 0) and the pair not
cooldown-suppressed, the low-fan alert fires whenever the snapshot's fan RPM
is below the floor AND strictly positive; a snapshot reporting a non-positive
RPM never produces a low-fan alert. -/
theorem fan_low_spec :
    ∀ (cfg : AlertConfig) (st : EngineState) (snap : MinerSnapshot) (now : Nat),
      (0 < cfg.fanRPMBelow → snap.fanRPM < cfg.fanRPMBelow → 0 < snap.fanRPM →
        (∀ t, st.alertCooldown (cooldownKey snap.minerIP AlertType.fanLow) = some t →
          cooldownWindow ≤ now - t) →
        fanAlertOf snap ∈ (checkSnapshot cfg st snap now).2) ∧
      (snap.fanRPM ≤ 0 →
        ∀ a ∈ (checkSnapshot cfg st snap now).2, a.type ≠ AlertType.fanLow) := by
  intro cfg st snap now
  constructor
  · intro h1 h2 h3 hcool
    have hc : fanCond cfg snap = true := by
      unfold fanCond
      simp [h1, h2, h3]
    have ha1 : (snapStep (st.alertCooldown, []) (tempCond cfg snap) now
        (tempAlertOf snap)).1 (cooldownKey snap.minerIP AlertType.fanLow) =
        st.alertCooldown (cooldownKey snap.minerIP AlertType.fanLow) :=
      snapStep_fst_apply_ne _ _ _ _
        (cooldownKey_ne snap.minerIP AlertType.fanLow AlertType.tempHigh (by decide))
    have ha2 : (snapStep (snapStep (st.alertCooldown, []) (tempCond cfg snap) now
        (tempAlertOf snap)) (hashrateDropCond cfg st snap) now
        (dropAlertOf st snap)).1 (cooldownKey snap.minerIP AlertType.fanLow) =
        st.alertCooldown (cooldownKey snap.minerIP AlertType.fanLow) := by
      rw [snapStep_fst_apply_ne _ _ _ _
        (cooldownKey_ne snap.minerIP AlertType.fanLow AlertType.hashrateDrop (by decide)), ha1]
    have hfire : (sendAlert (snapStep (snapStep (st.alertCooldown, [])
        (tempCond cfg snap) now (tempAlertOf snap)) (hashrateDropCond cfg st snap)
        now (dropAlertOf st snap)).1 now (fanAlertOf snap)).1 = true := by
      apply sendAlert_fires
      intro t ht
      simp only [fanAlertOf] at ht
      rw [ha2] at ht
      exact hcool t ht
    show fanAlertOf snap ∈ (checkSnapshotAcc cfg st snap now).2
    unfold checkSnapshotAcc
    apply mem_snapStep_of_mem
    apply mem_snapStep_of_mem
    apply mem_snapStep_of_mem
    rw [hc, snapStep_fires _ _ _ hfire]
    exact List.mem_append_right _ (List.mem_singleton.2 rfl)
  · intro hle a ha hfan
    have hc : fanCond cfg snap = false := by
      unfold fanCond
      have h0 : ¬(0 < snap.fanRPM) := not_lt.2 hle
      simp [h0]
    have ha2 : a ∈ (checkSnapshotAcc cfg st snap now).2 := ha
    unfold checkSnapshotAcc at ha2
    rw [hc, snapStep_false] at ha2
    rcases mem_of_mem_snapStep ha2 with ha2 | rfl
    · rcases mem_of_mem_snapStep ha2 with ha2 | rfl
      · rcases mem_of_mem_snapStep ha2 with ha2 | rfl
        · rcases mem_of_mem_snapStep ha2 with ha2 | rfl
          · rcases mem_of_mem_snapStep ha2 with ha2 | rfl
            · cases ha2
            · simp [tempAlertOf] at hfan
          · simp [dropAlertOf] at hfan
        · simp [wifiAlertOf] at hfan
      · simp [poolAlertOf] at hfan
    · simp [bestAlertOf] at hfan

/-- C6 (amended) witness: floor 2000 RPM, reading 700 RPM, fresh cooldown
state — the low-fan alert is emitted. -/
theorem fan_low_spec_witness :
    fanAlertOf snapFan700 ∈ (checkSnapshot cfgFan2000 (newAlertEngine 0) snapFan700 3).2 :=
  (fan_low_spec cfgFan2000 (newAlertEngine 0) snapFan700 3).1 (by decide) (by decide)
    (by decide) (fun t ht => by simp [newAlertEngine] at ht)

/-- Deleting an address always leaves no session entry under it. -/
theorem removeMiner_apply_self (c : CollectorState) (ip : String) :
    (removeMiner c ip).miners ip = none := by
  unfold removeMiner
  cases h : c.miners ip with
  | none => exact h
  | some conn => simp

/-- Adding an absent address installs a fresh session entry. -/
theorem addMiner_apply_none {c : CollectorState} {ip : String}
    (h : c.miners ip = none) :
    (addMiner c ip).1.miners ip = some { ip := ip, lastSeen := none } := by
  unfold addMiner
  rw [h]
  simp

/-- C8 counterexample: monitor a device, process one snapshot (hashrate 580),
remove the device and re-add it — the evaluator still holds the stale
per-device hashrate, whereas a first-time add leaves it unset; the round-trip
is therefore not identical to a first-time add. -/
theorem roundtrip_cex :
    (sysAddMiner (sysRemoveMiner
        (sysProcessSnapshot cfg0 (sysAddMiner (freshSystem 0) ipRoundTrip)
          snapRoundTrip 3).1 ipRoundTrip) ipRoundTrip).engine.lastHashrate ipRoundTrip
      = some 580 ∧
    (sysAddMiner (freshSystem 0) ipRoundTrip).engine.lastHashrate ipRoundTrip = none := by
  constructor
  · decide
  · decide

/-! Lemmas about the embedded regexp matcher. -/

theorem matchLit_append (l t : List Char) : matchLit l (l ++ t) = some t := by
  induction l with
  | nil => rfl
  | cons c l ih => simp [matchLit, ih]

theorem matchLit_drop_of_some {l s s2 : List Char} (h : matchLit l s = some s2) :
    s2 = s.drop l.length := by
  induction l generalizing s with
  | nil =>
      simp [matchLit] at h
      simp [h]
  | cons c l ih =>
      cases s with
      | nil => simp [matchLit] at h
      | cons x s =>
          simp only [matchLit] at h
          split at h
          · simpa using ih h
          · cases h

theorem matchLit_head_ne {c x : Char} (l s : List Char) (h : x ≠ c) :
    matchLit (c :: l) (x :: s) = none := by
  simp [matchLit, h]

theorem noSub_nil (c : Char) (l : List Char) : noSub (c :: l) [] := by
  intro m
  rw [List.drop_nil]
  rfl

theorem noSub_cons {l : List Char} {x : Char} {u : List Char}
    (h0 : matchLit l (x :: u) = none) (h1 : noSub l u) : noSub l (x :: u) := by
  intro m
  cases m with
  | zero => exact h0
  | succ m => exact h1 m

theorem noSub_append_notMem {c : Char} {l u v : List Char}
    (hu : c ∉ u) (hv : noSub (c :: l) v) : noSub (c :: l) (u ++ v) := by
  induction u with
  | nil => simpa using hv
  | cons x u ih =>
      have hx : x ≠ c := fun he => hu (he ▸ List.mem_cons_self x u)
      exact noSub_cons (matchLit_head_ne l _ hx)
        (ih fun hc => hu (List.mem_cons_of_mem x hc))

theorem noSub_of_notMem {c : Char} {l v : List Char} (h : c ∉ v) : noSub (c :: l) v := by
  have h2 := noSub_append_notMem h (noSub_nil c l)
  simpa using h2

theorem noSub_of_hasSub_false {c : Char} {l s : List Char}
    (h : hasSub (c :: l) s = false) : noSub (c :: l) s := by
  intro m
  by_cases hm : m ≤ s.length
  · have h2 := List.any_eq_false.1 h m (by
      rw [List.mem_range]
      omega)
    simpa [Option.isSome_iff_ne_none] using h2
  · rw [List.drop_eq_nil_of_le (by omega)]
    rfl

theorem tryFrom_greedy {f : List Char → Option (List (List Char))} {s : List Char}
    {i : Nat} {r : List (List Char)} (h : f (s.drop i) = some r) :
    tryFrom f s i = some r := by
  cases i with
  | zero =>
      rw [List.drop_zero] at h
      exact h
  | succ i => simp [tryFrom, h]

theorem tryFrom1_greedy {f : List Char → Option (List (List Char))} {s : List Char}
    {i : Nat} {r : List (List Char)} (hpos : 0 < i) (h : f (s.drop i) = some r) :
    tryFrom1 f s i = some r := by
  cases i with
  | zero => omega
  | succ i => simp [tryFrom1, h]

theorem tryGroup_greedy {f : List Char → Option (List (List Char))} {s : List Char}
    {i : Nat} {r : List (List Char)} (hpos : 0 < i) (h : f (s.drop i) = some r) :
    tryGroup f s i = some (s.take i :: r) := by
  cases i with
  | zero => omega
  | succ i => simp [tryGroup, h]

theorem tryFrom_some {f : List Char → Option (List (List Char))} {s : List Char} :
    ∀ {i r}, tryFrom f s i = some r → ∃ k, k ≤ i ∧ f (s.drop k) = some r := by
  intro i
  induction i with
  | zero =>
      intro r h
      exact ⟨0, Nat.le_refl 0, by simpa [tryFrom] using h⟩
  | succ i ih =>
      intro r h
      unfold tryFrom at h
      cases hm : f (s.drop (i + 1)) with
      | some r2 =>
          rw [hm] at h
          simp only [Option.some_inj] at h
          exact ⟨i + 1, Nat.le_refl _, by rw [hm, h]⟩
      | none =>
          rw [hm] at h
          obtain ⟨k, hk1, hk2⟩ := ih h
          exact ⟨k, by omega, hk2⟩

theorem tryFrom1_some {f : List Char → Option (List (List Char))} {s : List Char} :
    ∀ {i r}, tryFrom1 f s i = some r → ∃ k, k ≤ i ∧ f (s.drop k) = some r := by
  intro i
  induction i with
  | zero => intro r h; cases h
  | succ i ih =>
      intro r h
      unfold tryFrom1 at h
      cases hm : f (s.drop (i + 1)) with
      | some r2 =>
          rw [hm] at h
          simp only [Option.some_inj] at h
          exact ⟨i + 1, Nat.le_refl _, by rw [hm, h]⟩
      | none =>
          rw [hm] at h
          obtain ⟨k, hk1, hk2⟩ := ih h
          exact ⟨k, by omega, hk2⟩

theorem tryGroup_some {f : List Char → Option (List (List Char))} {s : List Char} :
    ∀ {i r}, tryGroup f s i = some r → ∃ k r2, k ≤ i ∧ f (s.drop k) = some r2 := by
  intro i
  induction i with
  | zero => intro r h; cases h
  | succ i ih =>
      intro r h
      unfold tryGroup at h
      cases hm : f (s.drop (i + 1)) with
      | some r2 => exact ⟨i + 1, r2, Nat.le_refl _, hm⟩
      | none =>
          rw [hm] at h
          obtain ⟨k, r2, hk1, hk2⟩ := ih h
          exact ⟨k, r2, by omega, hk2⟩

theorem tryFrom_unique {f : List Char → Option (List (List Char))} {s : List Char}
    {j : Nat} {r : List (List Char)} (hsucc : f (s.drop j) = some r) :
    ∀ {i}, j ≤ i → (∀ k, j < k → k ≤ i → f (s.drop k) = none) →
      tryFrom f s i = some r := by
  intro i
  induction i with
  | zero =>
      intro hj _
      have : j = 0 := by omega
      subst this
      rw [List.drop_zero] at hsucc
      exact hsucc
  | succ i ih =>
      intro hj hfail
      by_cases hji : j = i + 1
      · subst hji
        simp [tryFrom, hsucc]
      · have h1 : f (s.drop (i + 1)) = none := hfail (i + 1) (by omega) (Nat.le_refl _)
        simp only [tryFrom, h1]
        exact ih (by omega) fun k hk1 hk2 => hfail k hk1 (by omega)

theorem matchItems_lit_append (l : List Char) (rest : List RItem) (t : List Char) :
    matchItems (RItem.lit l :: rest) (l ++ t) = matchItems rest t := by
  simp [matchItems, matchLit_append]

theorem matchItems_lit_none {l s : List Char} (rest : List RItem)
    (h : matchLit l s = none) : matchItems (RItem.lit l :: rest) s = none := by
  simp [matchItems, h]

theorem star_greedy (p : Char → Bool) (rest : List RItem) {s : List Char}
    {r : List (List Char)} (h : matchItems rest (s.drop (runLen p s)) = some r) :
    matchItems (RItem.star p :: rest) s = some r :=
  tryFrom_greedy h

theorem plus_greedy (p : Char → Bool) (rest : List RItem) {s : List Char}
    {r : List (List Char)} (hpos : 0 < runLen p s)
    (h : matchItems rest (s.drop (runLen p s)) = some r) :
    matchItems (RItem.plus p :: rest) s = some r := by
  show (if runLen p s = 0 then none else tryFrom1 (matchItems rest) s (runLen p s)) = some r
  rw [if_neg (by omega)]
  exact tryFrom1_greedy hpos h

theorem group_greedy (p : Char → Bool) (rest : List RItem) {s : List Char}
    {r : List (List Char)} (hpos : 0 < runLen p s)
    (h : matchItems rest (s.drop (runLen p s)) = some r) :
    matchItems (RItem.group p :: rest) s = some (s.take (runLen p s) :: r) := by
  show (if runLen p s = 0 then none else tryGroup (matchItems rest) s (runLen p s))
    = some (s.take (runLen p s) :: r)
  rw [if_neg (by omega)]
  exact tryGroup_greedy hpos h

theorem star_then_lit (p : Char → Bool) (c : Char) (w : List Char) (rest : List RItem)
    {s : List Char} {j : Nat} {r : List (List Char)} (hj : j ≤ runLen p s)
    (hsucc : matchItems (RItem.lit (c :: w) :: rest) (s.drop j) = some r)
    (hno : noSub (c :: w) (s.drop (j + 1))) :
    matchItems (RItem.star p :: RItem.lit (c :: w) :: rest) s = some r := by
  show tryFrom (matchItems (RItem.lit (c :: w) :: rest)) s (runLen p s) = some r
  apply tryFrom_unique hsucc hj
  intro k hjk hk
  have hm : matchLit (c :: w) (s.drop k) = none := by
    have h2 := hno (k - (j + 1))
    rw [List.drop_drop] at h2
    rwa [show j + 1 + (k - (j + 1)) = k by omega] at h2
  exact matchItems_lit_none rest hm

theorem matchItems_sub :
    ∀ (pre : List RItem) {w : List Char} {rest : List RItem} {t : List Char}
      {r : List (List Char)},
      matchItems (pre ++ RItem.lit w :: rest) t = some r →
      ∃ m, matchLit w (t.drop m) ≠ none := by
  intro pre
  induction pre with
  | nil =>
      intro w rest t r h
      refine ⟨0, ?_⟩
      rw [List.drop_zero]
      intro hn
      rw [List.nil_append, matchItems_lit_none rest hn] at h
      cases h
  | cons i pre ih =>
      intro w rest t r h
      rw [List.cons_append] at h
      cases i with
      | lit l =>
          cases hl : matchLit l t with
          | none => rw [matchItems_lit_none _ hl] at h; cases h
          | some t2 =>
              have h2 : matchItems (pre ++ RItem.lit w :: rest) t2 = some r := by
                have h3 : matchItems (RItem.lit l :: (pre ++ RItem.lit w :: rest)) t =
                    matchItems (pre ++ RItem.lit w :: rest) t2 := by
                  simp [matchItems, hl]
                rw [h3] at h
                exact h
              obtain ⟨m, hm⟩ := ih h2
              rw [matchLit_drop_of_some hl, List.drop_drop] at hm
              exact ⟨_, hm⟩
      | star p =>
          obtain ⟨k, _, hk⟩ := tryFrom_some h
          obtain ⟨m, hm⟩ := ih hk
          rw [List.drop_drop] at hm
          exact ⟨_, hm⟩
      | plus p =>
          by_cases h0 : runLen p t = 0
          · simp [matchItems, h0] at h
          · have h4 : matchItems (RItem.plus p :: (pre ++ RItem.lit w :: rest)) t =
                tryFrom1 (matchItems (pre ++ RItem.lit w :: rest)) t (runLen p t) := by
              simp [matchItems, h0]
            rw [h4] at h
            obtain ⟨k, _, hk⟩ := tryFrom1_some h
            obtain ⟨m, hm⟩ := ih hk
            rw [List.drop_drop] at hm
            exact ⟨_, hm⟩
      | group p =>
          by_cases h0 : runLen p t = 0
          · simp [matchItems, h0] at h
          · have h4 : matchItems (RItem.group p :: (pre ++ RItem.lit w :: rest)) t =
                tryGroup (matchItems (pre ++ RItem.lit w :: rest)) t (runLen p t) := by
              simp [matchItems, h0]
            rw [h4] at h
            obtain ⟨k, r2, _, hk⟩ := tryGroup_some h
            obtain ⟨m, hm⟩ := ih hk
            rw [List.drop_drop] at hm
            exact ⟨_, hm⟩

theorem regexFindAux_of_match {items : List RItem} {s : List Char}
    {r : List (List Char)} (h : matchItems items s = some r) :
    regexFindAux items s = some r := by
  cases s with
  | nil => exact h
  | cons c s => simp [regexFindAux, h]

theorem regexFindAux_none {items : List RItem} :
    ∀ s, (∀ m, matchItems items (s.drop m) = none) → regexFindAux items s = none := by
  intro s
  induction s with
  | nil =>
      intro h
      have h0 := h 0
      rw [List.drop_nil] at h0
      exact h0
  | cons c s ih =>
      intro h
      have h0 := h 0
      rw [List.drop_zero] at h0
      simp only [regexFindAux, h0]
      exact ih fun m => h (m + 1)

theorem regexFindAux_none_of_noSub (pre : List RItem) {c : Char} {w : List Char}
    (rest : List RItem) {s : List Char} (hno : noSub (c :: w) s) :
    regexFindAux (pre ++ RItem.lit (c :: w) :: rest) s = none := by
  apply regexFindAux_none
  intro m
  cases hmi : matchItems (pre ++ RItem.lit (c :: w) :: rest) (s.drop m) with
  | none => rfl
  | some r =>
      obtain ⟨k, hk⟩ := matchItems_sub pre hmi
      rw [List.drop_drop] at hk
      exact absurd (hno _) hk

theorem regexFindAux_skip {c : Char} {w : List Char} {rest : List RItem}
    {u : List Char} (v : List Char) (hu : c ∉ u) :
    regexFindAux (RItem.lit (c :: w) :: rest) (u ++ v) =
      regexFindAux (RItem.lit (c :: w) :: rest) v := by
  induction u with
  | nil => rw [List.nil_append]
  | cons x u ih =>
      have hx : x ≠ c := fun he => hu (he ▸ List.mem_cons_self x u)
      have hfail : matchItems (RItem.lit (c :: w) :: rest) (x :: (u ++ v)) = none :=
        matchItems_lit_none rest (matchLit_head_ne w _ hx)
      rw [List.cons_append]
      simp only [regexFindAux, hfail]
      exact ih fun hc => hu (List.mem_cons_of_mem x hc)

theorem runLen_append_all {p : Char → Bool} {u : List Char} (v : List Char)
    (hu : ∀ c ∈ u, p c = true) : runLen p (u ++ v) = u.length + runLen p v := by
  induction u with
  | nil => simp
  | cons x u ih =>
      have hx := hu x (List.mem_cons_self x u)
      have ih2 := ih fun c hc => hu c (List.mem_cons_of_mem x hc)
      rw [List.cons_append,
        show runLen p (x :: (u ++ v)) = runLen p (u ++ v) + 1 from by simp [runLen, hx],
        ih2, List.length_cons]
      omega

theorem runLen_cons_false {p : Char → Bool} {x : Char} (s : List Char)
    (hx : p x = false) : runLen p (x :: s) = 0 := by
  simp [runLen, hx]

theorem runLen_stops {p : Char → Bool} {u : List Char} {x : Char} (v : List Char)
    (hu : ∀ c ∈ u, p c = true) (hx : p x = false) :
    runLen p (u ++ x :: v) = u.length := by
  rw [runLen_append_all _ hu, runLen_cons_false _ hx]
  omega

theorem runLen_all {p : Char → Bool} {u : List Char} (hu : ∀ c ∈ u, p c = true) :
    runLen p u = u.length := by
  have h2 := runLen_append_all (p := p) [] hu
  simpa [runLen] using h2

/-! Character-class and digit-rendering lemmas. -/

theorem digit_not_space {c : Char} (h : digitC c = true) : spaceC c = false := by
  cases hs : spaceC c
  · rfl
  · exfalso
    simp only [spaceC, Bool.or_eq_true, beq_iff_eq] at hs
    rcases hs with (((rfl | rfl) | rfl) | rfl) | rfl <;> exact absurd h (by decide)

theorem digit_any {c : Char} (h : digitC c = true) : anyC c = true := by
  cases ha : anyC c
  · exfalso
    simp only [anyC, bne_eq_false_iff_eq] at ha
    subst ha
    exact absurd h (by decide)
  · rfl

theorem digit_dotDigit {c : Char} (h : digitC c = true) : dotDigitC c = true := by
  simp [dotDigitC, h]

theorem digit_ne {c x : Char} (h : digitC c = true) (hx : digitC x = false) : c ≠ x :=
  fun he => by rw [he, hx] at h; cases h

theorem hex_ne {c x : Char} (h : hexC c = true) (hx : hexC x = false) : c ≠ x :=
  fun he => by rw [he, hx] at h; cases h

theorem hex_not_space {c : Char} (h : hexC c = true) : spaceC c = false := by
  cases hs : spaceC c
  · rfl
  · exfalso
    simp only [spaceC, Bool.or_eq_true, beq_iff_eq] at hs
    rcases hs with (((rfl | rfl) | rfl) | rfl) | rfl <;> exact absurd h (by decide)

theorem hex_any {c : Char} (h : hexC c = true) : anyC c = true := by
  cases ha : anyC c
  · exfalso
    simp only [anyC, bne_eq_false_iff_eq] at ha
    subst ha
    exact absurd h (by decide)
  · rfl

theorem natToDigits_ne_nil (n : Nat) : natToDigits n ≠ [] := by
  unfold natToDigits
  split
  · simp
  · simp

theorem natToHex_ne_nil (n : Nat) : natToHex n ≠ [] := by
  unfold natToHex
  split
  · simp
  · simp

theorem mem_natToDigits_digit :
    ∀ (n : Nat), ∀ c ∈ natToDigits n, digitC c = true := by
  intro n
  induction n using Nat.strong_induction_on with
  | _ n ih =>
      intro c hc
      unfold natToDigits at hc
      split at hc
      · simp only [List.mem_singleton] at hc
        subst hc
        exact (show ∀ d, d < 10 → digitC (Nat.digitChar d) = true by decide) n
          (by assumption)
      · rw [List.mem_append] at hc
        rcases hc with hc | hc
        · exact ih (n / 10) (Nat.div_lt_self (by omega) (by omega)) c hc
        · simp only [List.mem_singleton] at hc
          subst hc
          exact (show ∀ d, d < 10 → digitC (Nat.digitChar d) = true by decide) (n % 10)
            (Nat.mod_lt _ (by omega))

theorem mem_natToHex_hex :
    ∀ (n : Nat), ∀ c ∈ natToHex n, hexC c = true := by
  intro n
  induction n using Nat.strong_induction_on with
  | _ n ih =>
      intro c hc
      unfold natToHex at hc
      split at hc
      · simp only [List.mem_singleton] at hc
        subst hc
        exact (show ∀ d, d < 16 → hexC (Nat.digitChar d) = true by decide) n
          (by assumption)
      · rw [List.mem_append] at hc
        rcases hc with hc | hc
        · exact ih (n / 16) (Nat.div_lt_self (by omega) (by omega)) c hc
        · simp only [List.mem_singleton] at hc
          subst hc
          exact (show ∀ d, d < 16 → hexC (Nat.digitChar d) = true by decide) (n % 16)
            (Nat.mod_lt _ (by omega))

theorem notMem_natToDigits {c : Char} (hc : digitC c = false) (n : Nat) :
    c ∉ natToDigits n :=
  fun h => by rw [mem_natToDigits_digit n c h] at hc; cases hc

theorem notMem_natToHex {c : Char} (hc : hexC c = false) (n : Nat) :
    c ∉ natToHex n :=
  fun h => by rw [mem_natToHex_hex n c h] at hc; cases hc

theorem notMemAppend {c : Char} {u v : List Char} (hu : c ∉ u) (hv : c ∉ v) :
    c ∉ u ++ v := by
  intro h
  rcases List.mem_append.1 h with h | h
  · exact hu h
  · exact hv h

theorem notMemCons {c x : Char} {u : List Char} (hx : c ≠ x) (hu : c ∉ u) :
    c ∉ x :: u := by
  intro h
  rcases List.mem_cons.1 h with h | h
  · exact hx h
  · exact hu h

theorem digitsVal_append_singleton (u : List Char) (c : Char) :
    digitsVal (u ++ [c]) = digitsVal u * 10 + (c.toNat - '0'.toNat) := by
  unfold digitsVal
  rw [List.foldl_append]
  rfl

theorem digitsVal_natToDigits : ∀ n, digitsVal (natToDigits n) = n := by
  intro n
  induction n using Nat.strong_induction_on with
  | _ n ih =>
      unfold natToDigits
      split
      · exact (show ∀ d, d < 10 → digitsVal [Nat.digitChar d] = d by decide) n
          (by assumption)
      · rw [digitsVal_append_singleton,
          ih (n / 10) (Nat.div_lt_self (by omega) (by omega)),
          (show ∀ d, d < 10 → (Nat.digitChar d).toNat - '0'.toNat = d by decide) (n % 10)
            (Nat.mod_lt _ (by omega))]
        omega

theorem takeWhile_dropWhile_split {p : Char → Bool} {u : List Char} {x : Char}
    (v : List Char) (hu : ∀ c ∈ u, p c = true) (hx : p x = false) :
    (u ++ x :: v).takeWhile p = u ∧ (u ++ x :: v).dropWhile p = x :: v := by
  induction u with
  | nil => simp [List.takeWhile, List.dropWhile, hx]
  | cons y u ih =>
      have hy := hu y (List.mem_cons_self y u)
      have ih2 := ih fun c hc => hu c (List.mem_cons_of_mem y hc)
      rw [List.cons_append, List.takeWhile_cons_of_pos hy,
        List.dropWhile_cons_of_pos hy, ih2.1]
      exact ⟨rfl, ih2.2⟩

theorem contains_dot_false {df : List Char} (h : ∀ c ∈ df, digitC c = true) :
    df.contains '.' = false := by
  cases hc : df.contains '.'
  · rfl
  · exfalso
    have hmem : ('.' : Char) ∈ df := List.mem_of_elem_eq_true hc
    exact absurd (h '.' hmem) (by decide)

theorem goParseFloat_split {dm df : List Char}
    (hm : ∀ c ∈ dm, digitC c = true) (hf : ∀ c ∈ df, digitC c = true)
    (hmne : dm ≠ []) :
    goParseFloat (dm ++ '.' :: df) =
      (digitsVal dm : ℚ) + (digitsVal df : ℚ) / (10 ^ df.length : ℚ) := by
  have hmp : ∀ c ∈ dm, (c != '.') = true := fun c hc => by
    rw [bne_iff_ne]
    exact digit_ne (hm c hc) (by decide)
  have hdot : (('.' : Char) != '.') = false := by decide
  obtain ⟨ht, hd⟩ := takeWhile_dropWhile_split (p := fun c => c != '.') df hmp hdot
  unfold goParseFloat
  rw [ht, hd]
  rw [if_neg (by simp : ¬(('.' :: df : List Char)).isEmpty = true)]
  simp only [List.tail_cons]
  rw [if_neg (by rw [contains_dot_false hf]; exact Bool.false_ne_true)]
  rw [if_neg (by
    rintro ⟨h1, _⟩
    exact hmne h1)]

/-! Segmented matching steps, used to walk the patterns over a well-formed
line segment by segment. -/

theorem lit_seg (l : List Char) (rest : List RItem) {v : List Char}
    {r : List (List Char)} (h : matchItems rest v = some r) :
    matchItems (RItem.lit l :: rest) (l ++ v) = some r := by
  rw [matchItems_lit_append]
  exact h

theorem star_seg_lit (p : Char → Bool) (u : List Char) (c : Char) (w : List Char)
    (rest : List RItem) {v2 : List Char} {r : List (List Char)}
    (hu : ∀ x ∈ u, p x = true)
    (hsucc : matchItems rest v2 = some r)
    (hno : noSub (c :: w) (w ++ v2)) :
    matchItems (RItem.star p :: RItem.lit (c :: w) :: rest)
      (u ++ ((c :: w) ++ v2)) = some r := by
  apply star_then_lit p c w rest (j := u.length)
  · rw [runLen_append_all _ hu]
    omega
  · have hd : (u ++ ((c :: w) ++ v2)).drop u.length = (c :: w) ++ v2 :=
      List.drop_left u ((c :: w) ++ v2)
    rw [hd]
    exact lit_seg (c :: w) rest hsucc
  · have hd : (u ++ ((c :: w) ++ v2)).drop (u.length + 1) = w ++ v2 := by
      rw [← List.drop_drop, List.drop_left u ((c :: w) ++ v2)]
      rfl
    rw [hd]
    exact hno

theorem star_space_v (rest : List RItem) {v : List Char} {r : List (List Char)}
    (hv : runLen spaceC v = 0) (hcont : matchItems rest v = some r) :
    matchItems (RItem.star spaceC :: rest) (' ' :: v) = some r := by
  apply star_greedy
  have h1 : runLen spaceC (' ' :: v) = 1 := by
    rw [show runLen spaceC (' ' :: v) = runLen spaceC v + 1 from by
      simp [runLen]
      decide, hv]
  rw [h1]
  exact hcont

theorem plus_space_v (rest : List RItem) {v : List Char} {r : List (List Char)}
    (hv : runLen spaceC v = 0) (hcont : matchItems rest v = some r) :
    matchItems (RItem.plus spaceC :: rest) (' ' :: v) = some r := by
  have h1 : runLen spaceC (' ' :: v) = 1 := by
    rw [show runLen spaceC (' ' :: v) = runLen spaceC v + 1 from by
      simp [runLen]
      decide, hv]
  apply plus_greedy
  · rw [h1]
    omega
  · rw [h1]
    exact hcont

theorem runLen_space_zero_digits (n : Nat) (v : List Char) :
    runLen spaceC (natToDigits n ++ v) = 0 := by
  obtain ⟨c0, t0, hc0⟩ := List.exists_cons_of_ne_nil (natToDigits_ne_nil n)
  rw [hc0, List.cons_append]
  exact runLen_cons_false _ (digit_not_space (mem_natToDigits_digit n c0 (by
    rw [hc0]
    exact List.mem_cons_self c0 t0)))

theorem runLen_space_zero_hex (n : Nat) (v : List Char) :
    runLen spaceC (natToHex n ++ v) = 0 := by
  obtain ⟨c0, t0, hc0⟩ := List.exists_cons_of_ne_nil (natToHex_ne_nil n)
  rw [hc0, List.cons_append]
  exact runLen_cons_false _ (hex_not_space (mem_natToHex_hex n c0 (by
    rw [hc0]
    exact List.mem_cons_self c0 t0)))

theorem group_digits_step (n : Nat) (rest : List RItem) {v : List Char}
    {r : List (List Char)} (hv : runLen digitC v = 0)
    (hcont : matchItems rest v = some r) :
    matchItems (RItem.group digitC :: rest) (natToDigits n ++ v) =
      some (natToDigits n :: r) := by
  have hrl : runLen digitC (natToDigits n ++ v) = (natToDigits n).length := by
    rw [runLen_append_all v (mem_natToDigits_digit n), hv]
    omega
  have hpos : 0 < runLen digitC (natToDigits n ++ v) := by
    rw [hrl]
    exact List.length_pos.2 (natToDigits_ne_nil n)
  have hcont2 : matchItems rest
      ((natToDigits n ++ v).drop (runLen digitC (natToDigits n ++ v))) = some r := by
    rw [hrl, List.drop_left]
    exact hcont
  have h2 := group_greedy digitC rest hpos hcont2
  rw [hrl, List.take_left] at h2
  exact h2

theorem group_hex_step (n : Nat) (rest : List RItem) {v : List Char}
    {r : List (List Char)} (hv : runLen hexC v = 0)
    (hcont : matchItems rest v = some r) :
    matchItems (RItem.group hexC :: rest) (natToHex n ++ v) =
      some (natToHex n :: r) := by
  have hrl : runLen hexC (natToHex n ++ v) = (natToHex n).length := by
    rw [runLen_append_all v (mem_natToHex_hex n), hv]
    omega
  have hpos : 0 < runLen hexC (natToHex n ++ v) := by
    rw [hrl]
    exact List.length_pos.2 (natToHex_ne_nil n)
  have hcont2 : matchItems rest
      ((natToHex n ++ v).drop (runLen hexC (natToHex n ++ v))) = some r := by
    rw [hrl, List.drop_left]
    exact hcont
  have h2 := group_greedy hexC rest hpos hcont2
  rw [hrl, List.take_left] at h2
  exact h2

theorem group_dotdigits_end (m f : Nat) {v : List Char}
    (hv : runLen dotDigitC v = 0) :
    matchItems [RItem.group dotDigitC]
      (natToDigits m ++ ('.' :: (natToDigits f ++ v))) =
      some [natToDigits m ++ '.' :: natToDigits f] := by
  have hall : ∀ c ∈ natToDigits m ++ '.' :: natToDigits f, dotDigitC c = true := by
    intro c hc
    rcases List.mem_append.1 hc with hc | hc
    · exact digit_dotDigit (mem_natToDigits_digit m c hc)
    · rcases List.mem_cons.1 hc with rfl | hc
      · decide
      · exact digit_dotDigit (mem_natToDigits_digit f c hc)
  have hshape : natToDigits m ++ ('.' :: (natToDigits f ++ v)) =
      (natToDigits m ++ '.' :: natToDigits f) ++ v := by
    simp [List.append_assoc]
  rw [hshape]
  have hrl : runLen dotDigitC ((natToDigits m ++ '.' :: natToDigits f) ++ v) =
      (natToDigits m ++ '.' :: natToDigits f).length := by
    rw [runLen_append_all v hall, hv]
    omega
  have hpos : 0 < runLen dotDigitC ((natToDigits m ++ '.' :: natToDigits f) ++ v) := by
    rw [hrl, List.length_append, List.length_cons]
    omega
  have h2 := group_greedy dotDigitC []
    (s := (natToDigits m ++ '.' :: natToDigits f) ++ v) hpos rfl
  rw [hrl, List.take_left] at h2
  exact h2

theorem matchLit_second_ne {d x : Char} (c : Char) (l s : List Char) (h : x ≠ d) :
    matchLit (c :: d :: l) (c :: x :: s) = none := by
  simp [matchLit, h]

/-- The NerdQAxe pattern matches a well-formed NerdQAxe line body, capturing
the decimal job id, the ASIC index and the dotted difficulty token. -/
theorem nerd_match (j a m f : Nat) :
    matchItems shareItemsNerdQAxe (nerdCore j a m f) =
      some [natToDigits j, natToDigits a,
        natToDigits m ++ '.' :: natToDigits f] := by
  unfold shareItemsNerdQAxe nerdCore
  rw [matchItems_lit_append]
  refine star_seg_lit anyC " (Pri) ".data 'J' "ob ID:".data _ (by decide) ?_ ?_
  · refine star_space_v _ (runLen_space_zero_digits j _) ?_
    refine group_digits_step j _ (runLen_cons_false _ (by decide)) ?_
    refine plus_space_v _ (runLen_cons_false _ (by decide)) ?_
    refine lit_seg "AsicNr:".data _ ?_
    refine star_space_v _ (runLen_space_zero_digits a _) ?_
    refine group_digits_step a _ (runLen_cons_false _ (by decide)) ?_
    refine star_seg_lit anyC
      (' ' :: ("Ver: 23B82202 Nonce F854197E; Extranonce2 001c0041".data ++ [' ']))
      'd' "iff".data _ (by decide) ?_ ?_
    · refine plus_space_v _ (runLen_space_zero_digits m _) ?_
      exact group_dotdigits_end m f (runLen_cons_false _ (by decide))
    · exact noSub_of_notMem (notMemAppend (by decide)
        (notMemCons (by decide)
          (notMemAppend (notMem_natToDigits (by decide) m)
            (notMemCons (by decide)
              (notMemAppend (notMem_natToDigits (by decide) f) (by decide))))))
  · exact noSub_of_notMem (notMemAppend (by decide)
      (notMemCons (by decide)
        (notMemAppend (notMem_natToDigits (by decide) j)
          (notMemCons (by decide)
            (notMemAppend (by decide)
              (notMemCons (by decide)
                (notMemAppend (notMem_natToDigits (by decide) a)
                  (notMemCons (by decide)
                    (notMemAppend (by decide)
                      (notMemCons (by decide)
                        (notMemAppend (by decide)
                          (notMemCons (by decide)
                            (notMemAppend (notMem_natToDigits (by decide) m)
                              (notMemCons (by decide)
                                (notMemAppend (notMem_natToDigits (by decide) f)
                                  (by decide))))))))))))))))

/-- The AxeOS pattern matches a well-formed AxeOS line body, capturing the
hexadecimal job id, the ASIC index and the dotted difficulty token. -/
theorem axe_match (hx a m f : Nat) :
    matchItems shareItemsAxeOS (axeCore hx a m f) =
      some [natToHex hx, natToDigits a,
        natToDigits m ++ '.' :: natToDigits f] := by
  unfold shareItemsAxeOS axeCore
  rw [matchItems_lit_append]
  refine star_seg_lit anyC [' '] 'I' "D:".data _ (by decide) ?_ ?_
  · refine star_space_v _ (runLen_space_zero_hex hx _) ?_
    refine group_hex_step hx _ (runLen_cons_false _ (by decide)) ?_
    refine lit_seg ",".data _ ?_
    refine star_space_v _ (runLen_cons_false _ (by decide)) ?_
    refine lit_seg "ASIC nr:".data _ ?_
    refine star_space_v _ (runLen_space_zero_digits a _) ?_
    refine group_digits_step a _ (runLen_cons_false _ (by decide)) ?_
    refine star_seg_lit anyC
      (',' :: (' ' :: ("ver: 21BF0000 Nonce 383C02D4".data ++ [' '])))
      'd' "iff".data _ (by decide) ?_ ?_
    · refine plus_space_v _ (runLen_space_zero_digits m _) ?_
      exact group_dotdigits_end m f (runLen_cons_false _ (by decide))
    · exact noSub_of_notMem (notMemAppend (by decide)
        (notMemCons (by decide)
          (notMemAppend (notMem_natToDigits (by decide) m)
            (notMemCons (by decide)
              (notMemAppend (notMem_natToDigits (by decide) f) (by decide))))))
  · -- no second occurrence of the token "ID:" after the match position: the
    -- only later 'I' is inside "ASIC nr:" and is followed by 'C', not 'D'
    refine noSub_append_notMem (by decide) ?_
    refine noSub_append_notMem (u := [' ']) (by decide) ?_
    refine noSub_append_notMem (notMem_natToHex (by decide) hx) ?_
    refine noSub_append_notMem (u := [',', ' ']) (by decide) ?_
    refine noSub_append_notMem (u := "AS".data) (by decide) ?_
    refine noSub_cons (matchLit_second_ne 'I' _ _ (by decide)) ?_
    refine noSub_append_notMem (by decide) ?_
    exact noSub_of_notMem (notMemCons (by decide)
      (notMemAppend (notMem_natToDigits (by decide) a)
        (notMemCons (by decide) (notMemCons (by decide)
          (notMemAppend (by decide)
            (notMemCons (by decide)
              (notMemAppend (by decide)
                (notMemCons (by decide)
                  (notMemAppend (notMem_natToDigits (by decide) m)
                    (notMemCons (by decide)
                      (notMemAppend (notMem_natToDigits (by decide) f)
                        (by decide))))))))))))

theorem find_nerd_skip {u : List Char} (v : List Char) (hu : 'a' ∉ u) :
    regexFindAux shareItemsNerdQAxe (u ++ v) =
      regexFindAux shareItemsNerdQAxe v := by
  unfold shareItemsNerdQAxe
  exact regexFindAux_skip v hu

theorem find_axe_skip {u : List Char} (v : List Char) (hu : 'a' ∉ u) :
    regexFindAux shareItemsAxeOS (u ++ v) =
      regexFindAux shareItemsAxeOS v := by
  unfold shareItemsAxeOS
  exact regexFindAux_skip v hu

theorem notMem_linePre (c : Char) (ts : Nat) (hc1 : c ∉ "I (".data)
    (hc2 : digitC c = false) (hc3 : c ∉ ") ".data) :
    c ∉ "I (".data ++ (natToDigits ts ++ ") ".data) :=
  notMemAppend hc1 (notMemAppend (notMem_natToDigits hc2 ts) hc3)

theorem regexFind_nerdLine (ts j a m f : Nat) :
    regexFindAux shareItemsNerdQAxe (nerdLine ts j a m f) =
      some [natToDigits j, natToDigits a,
        natToDigits m ++ '.' :: natToDigits f] := by
  unfold nerdLine
  rw [find_nerd_skip (nerdCore j a m f)
    (notMem_linePre 'a' ts (by decide) (by decide) (by decide))]
  exact regexFindAux_of_match (nerd_match j a m f)

theorem regexFind_axeLine (ts hx a m f : Nat) :
    regexFindAux shareItemsAxeOS (axeLine ts hx a m f) =
      some [natToHex hx, natToDigits a,
        natToDigits m ++ '.' :: natToDigits f] := by
  unfold axeLine
  rw [find_axe_skip (axeCore hx a m f)
    (notMem_linePre 'a' ts (by decide) (by decide) (by decide))]
  exact regexFindAux_of_match (axe_match hx a m f)

/-- The NerdQAxe pattern cannot match an AxeOS line: the token "Job ID:"
occurs nowhere in it (the line contains no 'J' at all). -/
theorem regexFind_nerd_on_axeLine (ts hx a m f : Nat) :
    regexFindAux shareItemsNerdQAxe (axeLine ts hx a m f) = none := by
  unfold shareItemsNerdQAxe
  refine regexFindAux_none_of_noSub
    [RItem.lit "asic_result:".data, RItem.star anyC]
    [RItem.star spaceC, RItem.group digitC, RItem.plus spaceC,
     RItem.lit "AsicNr:".data, RItem.star spaceC, RItem.group digitC,
     RItem.star anyC, RItem.lit "diff".data, RItem.plus spaceC,
     RItem.group dotDigitC]
    (noSub_of_notMem ?_)
  unfold axeLine axeCore
  exact notMemAppend (notMem_linePre 'J' ts (by decide) (by decide) (by decide))
    (notMemAppend (by decide)
      (notMemCons (by decide)
        (notMemAppend (by decide)
          (notMemCons (by decide)
            (notMemAppend (notMem_natToHex (by decide) hx)
              (notMemCons (by decide)
                (notMemCons (by decide)
                  (notMemAppend (by decide)
                    (notMemCons (by decide)
                      (notMemAppend (notMem_natToDigits (by decide) a)
                        (notMemCons (by decide)
                          (notMemCons (by decide)
                            (notMemAppend (by decide)
                              (notMemCons (by decide)
                                (notMemAppend (by decide)
                                  (notMemCons (by decide)
                                    (notMemAppend (notMem_natToDigits (by decide) m)
                                      (notMemCons (by decide)
                                        (notMemAppend
                                          (notMem_natToDigits (by decide) f)
                                          (by decide))))))))))))))))))))

theorem goAtoi_natToDigits {a : Nat} (ha : (a : Int) ≤ 2 ^ 63 - 1) :
    goAtoi (natToDigits a) = (a : Int) := by
  unfold goAtoi
  rw [digitsVal_natToDigits]
  exact if_pos ha

theorem goParseFloat_digits (m f : Nat) :
    goParseFloat (natToDigits m ++ '.' :: natToDigits f) =
      (m : ℚ) + (f : ℚ) / (10 ^ (natToDigits f).length : ℚ) := by
  rw [goParseFloat_split (mem_natToDigits_digit m) (mem_natToDigits_digit f)
    (natToDigits_ne_nil m), digitsVal_natToDigits, digitsVal_natToDigits]

/-- The parser on a well-formed NerdQAxe line: the first pattern matches and
its captures are decoded into the Share event. -/
theorem shareParse_nerdLine (ip : String) (ts j a m f : Nat)
    (ha : (a : Int) ≤ 2 ^ 63 - 1) :
    shareParse ip (nerdLine ts j a m f) = some
      { minerIP := ip, hostname := "", asicNum := (a : Int),
        difficulty := (m : ℚ) + (f : ℚ) / (10 ^ (natToDigits f).length : ℚ),
        jobID := String.mk (natToDigits j) } := by
  unfold shareParse
  rw [regexFind_nerdLine ts j a m f]
  show some (Share.mk ip "" (goAtoi (natToDigits a))
      (goParseFloat (natToDigits m ++ '.' :: natToDigits f))
      (String.mk (natToDigits j))) = _
  rw [goAtoi_natToDigits ha, goParseFloat_digits m f]

/-- The parser on a well-formed AxeOS line: the NerdQAxe pattern fails, the
AxeOS pattern matches, and its captures are decoded into the Share event. -/
theorem shareParse_axeLine (ip : String) (ts hx a m f : Nat)
    (ha : (a : Int) ≤ 2 ^ 63 - 1) :
    shareParse ip (axeLine ts hx a m f) = some
      { minerIP := ip, hostname := "", asicNum := (a : Int),
        difficulty := (m : ℚ) + (f : ℚ) / (10 ^ (natToDigits f).length : ℚ),
        jobID := String.mk (natToHex hx) } := by
  unfold shareParse
  rw [regexFind_nerd_on_axeLine ts hx a m f, regexFind_axeLine ts hx a m f]
  show some (Share.mk ip "" (goAtoi (natToDigits a))
      (goParseFloat (natToDigits m ++ '.' :: natToDigits f))
      (String.mk (natToHex hx))) = _
  rw [goAtoi_natToDigits ha, goParseFloat_digits m f]

/-- C8 (amended): the add → remove → add round-trip fully re-initializes the
session-registry entry — the re-added device gets a fresh connection record
with no last-seen, exactly as a first-time add does — but the alert
evaluator's per-device maps are untouched by add/remove and therefore survive
the round-trip unchanged. -/
theorem roundtrip_spec :
    ∀ (s : SystemState) (ip : String),
      (sysAddMiner (sysRemoveMiner (sysAddMiner s ip) ip) ip).collector.miners ip =
        some { ip := ip, lastSeen := none } ∧
      (sysAddMiner (freshSystem 0) ip).collector.miners ip =
        some { ip := ip, lastSeen := none } ∧
      (sysAddMiner (sysRemoveMiner (sysAddMiner s ip) ip) ip).engine = s.engine := by
  intro s ip
  exact ⟨addMiner_apply_none (removeMiner_apply_self _ _),
    addMiner_apply_none rfl, rfl⟩

set_option maxRecDepth 40000 in
/-- C4: every well-formed share line in either supported firmware format
parses to a Share whose job id, ASIC index and difficulty are exactly the
embedded values — the job id a decimal counter in the NerdQAxe family and a
hexadecimal token in the AxeOS family — and the patterns are attempted in a
fixed priority order (NerdQAxe first, then AxeOS), the first successful
structured match being returned: on a line matched by both patterns the
NerdQAxe captures win even though the AxeOS pattern also matches. -/
theorem shareParse_wellformed (ip : String) (ts j a m f hx : Nat)
    (ha : (a : Int) ≤ 2 ^ 63 - 1) :
    shareParse ip (nerdLine ts j a m f) = some
      { minerIP := ip, hostname := "", asicNum := (a : Int),
        difficulty := (m : ℚ) + (f : ℚ) / (10 ^ (natToDigits f).length : ℚ),
        jobID := String.mk (natToDigits j) } ∧
    shareParse ip (axeLine ts hx a m f) = some
      { minerIP := ip, hostname := "", asicNum := (a : Int),
        difficulty := (m : ℚ) + (f : ℚ) / (10 ^ (natToDigits f).length : ℚ),
        jobID := String.mk (natToHex hx) } ∧
    shareParse ip bothLine = some
      { minerIP := ip, hostname := "", asicNum := 3, difficulty := 7,
        jobID := "5" } ∧
    regexFindAux shareItemsAxeOS bothLine =
      some ["ab".data, "2".data, "7".data] := by
  refine ⟨shareParse_nerdLine ip ts j a m f ha,
    shareParse_axeLine ip ts hx a m f ha, ?_, by decide⟩
  have h1 : regexFindAux shareItemsNerdQAxe bothLine =
      some [['5'], ['3'], ['7']] := by decide
  unfold shareParse
  rw [h1]
  rfl

set_option maxRecDepth 40000 in
/-- C4 witness: the repo's own NerdQAxe test vector values. -/
theorem shareParse_wellformed_witness :
    ((3 : Nat) : Int) ≤ 2 ^ 63 - 1 ∧
    shareParse "192.168.1.100" (nerdLine 858876424 18 3 5894 3) = some
      { minerIP := "192.168.1.100", hostname := "",
        asicNum := ((3 : Nat) : Int),
        difficulty := ((5894 : Nat) : ℚ) +
          ((3 : Nat) : ℚ) / (10 ^ (natToDigits 3).length : ℚ),
        jobID := String.mk (natToDigits 18) } :=
  ⟨by decide,
   (shareParse_wellformed "192.168.1.100" 858876424 18 3 5894 3 0 (by decide)).1⟩

set_option maxRecDepth 40000 in
/-- C5: the share parser is total with no error outcome, and returns no
event on an empty line, a whitespace-only line, or any line missing a
required field: with no job-id token (neither "Job ID:" nor "ID:"), no
ASIC-index token (neither "AsicNr:" nor "ASIC nr:"), or no "diff" token,
both patterns fail and the parser yields none — including the repo's two
concrete trigger-substring-but-malformed log lines. -/
theorem shareParse_negative (ip : String) (line : List Char) :
    shareParse ip [] = none ∧
    ((∀ c ∈ line, spaceC c = true) → shareParse ip line = none) ∧
    (hasSub "Job ID:".data line = false ∧ hasSub "ID:".data line = false →
      shareParse ip line = none) ∧
    (hasSub "AsicNr:".data line = false ∧ hasSub "ASIC nr:".data line = false →
      shareParse ip line = none) ∧
    (hasSub "diff".data line = false → shareParse ip line = none) ∧
    shareParse ip "I (12345) asic_result: initializing".data = none ∧
    shareParse ip "I (12345) asic_result: AsicNr: 3 diff 1000.0".data = none := by
  have hboth : ∀ l : List Char,
      regexFindAux shareItemsNerdQAxe l = none →
      regexFindAux shareItemsAxeOS l = none → shareParse ip l = none := by
    intro l h1 h2
    unfold shareParse
    rw [h1, h2]
  refine ⟨rfl, ?_, ?_, ?_, ?_, ?_, ?_⟩
  · intro hsp
    have ha2 : 'a' ∉ line := fun hmem => absurd (hsp 'a' hmem) (by decide)
    refine hboth line ?_ ?_
    · unfold shareItemsNerdQAxe
      exact regexFindAux_none_of_noSub []
        [RItem.star anyC, RItem.lit "Job ID:".data, RItem.star spaceC,
         RItem.group digitC, RItem.plus spaceC, RItem.lit "AsicNr:".data,
         RItem.star spaceC, RItem.group digitC, RItem.star anyC,
         RItem.lit "diff".data, RItem.plus spaceC, RItem.group dotDigitC]
        (noSub_of_notMem ha2)
    · unfold shareItemsAxeOS
      exact regexFindAux_none_of_noSub []
        [RItem.star anyC, RItem.lit "ID:".data, RItem.star spaceC,
         RItem.group hexC, RItem.lit ",".data, RItem.star spaceC,
         RItem.lit "ASIC nr:".data, RItem.star spaceC, RItem.group digitC,
         RItem.star anyC, RItem.lit "diff".data, RItem.plus spaceC,
         RItem.group dotDigitC]
        (noSub_of_notMem ha2)
  · intro hsub
    refine hboth line ?_ ?_
    · unfold shareItemsNerdQAxe
      exact regexFindAux_none_of_noSub
        [RItem.lit "asic_result:".data, RItem.star anyC]
        [RItem.star spaceC, RItem.group digitC, RItem.plus spaceC,
         RItem.lit "AsicNr:".data, RItem.star spaceC, RItem.group digitC,
         RItem.star anyC, RItem.lit "diff".data, RItem.plus spaceC,
         RItem.group dotDigitC]
        (noSub_of_hasSub_false hsub.1)
    · unfold shareItemsAxeOS
      exact regexFindAux_none_of_noSub
        [RItem.lit "asic_result:".data, RItem.star anyC]
        [RItem.star spaceC, RItem.group hexC, RItem.lit ",".data,
         RItem.star spaceC, RItem.lit "ASIC nr:".data, RItem.star spaceC,
         RItem.group digitC, RItem.star anyC, RItem.lit "diff".data,
         RItem.plus spaceC, RItem.group dotDigitC]
        (noSub_of_hasSub_false hsub.2)
  · intro hsub
    refine hboth line ?_ ?_
    · unfold shareItemsNerdQAxe
      exact regexFindAux_none_of_noSub
        [RItem.lit "asic_result:".data, RItem.star anyC,
         RItem.lit "Job ID:".data, RItem.star spaceC, RItem.group digitC,
         RItem.plus spaceC]
        [RItem.star spaceC, RItem.group digitC, RItem.star anyC,
         RItem.lit "diff".data, RItem.plus spaceC, RItem.group dotDigitC]
        (noSub_of_hasSub_false hsub.1)
    · unfold shareItemsAxeOS
      exact regexFindAux_none_of_noSub
        [RItem.lit "asic_result:".data, RItem.star anyC, RItem.lit "ID:".data,
         RItem.star spaceC, RItem.group hexC, RItem.lit ",".data,
         RItem.star spaceC]
        [RItem.star spaceC, RItem.group digitC, RItem.star anyC,
         RItem.lit "diff".data, RItem.plus spaceC, RItem.group dotDigitC]
        (noSub_of_hasSub_false hsub.2)
  · intro hsub
    refine hboth line ?_ ?_
    · unfold shareItemsNerdQAxe
      exact regexFindAux_none_of_noSub
        [RItem.lit "asic_result:".data, RItem.star anyC,
         RItem.lit "Job ID:".data, RItem.star spaceC, RItem.group digitC,
         RItem.plus spaceC, RItem.lit "AsicNr:".data, RItem.star spaceC,
         RItem.group digitC, RItem.star anyC]
        [RItem.plus spaceC, RItem.group dotDigitC]
        (noSub_of_hasSub_false hsub)
    · unfold shareItemsAxeOS
      exact regexFindAux_none_of_noSub
        [RItem.lit "asic_result:".data, RItem.star anyC, RItem.lit "ID:".data,
         RItem.star spaceC, RItem.group hexC, RItem.lit ",".data,
         RItem.star spaceC, RItem.lit "ASIC nr:".data, RItem.star spaceC,
         RItem.group digitC, RItem.star anyC]
        [RItem.plus spaceC, RItem.group dotDigitC]
        (noSub_of_hasSub_false hsub)
  · exact hboth _ (by decide) (by decide)
  · exact hboth _ (by decide) (by decide)

set_option maxRecDepth 40000 in
/-- C5 witness: the repo's own negative test vectors — the empty line, the
whitespace-only line, and a trigger line with no job id. -/
theorem shareParse_negative_witness :
    shareParse "192.168.1.1" [] = none ∧
    shareParse "192.168.1.1" "   \t\n  ".data = none ∧
    shareParse "192.168.1.1" "I (12345) asic_result: initializing".data = none :=
  ⟨(shareParse_negative "192.168.1.1" []).1,
   (shareParse_negative "192.168.1.1" "   \t\n  ".data).2.1 (by decide),
   (shareParse_negative "192.168.1.1"
     "I (12345) asic_result: initializing".data).2.2.1 ⟨by decide, by decide⟩⟩

end MinerHQ
